import Mathlib

/-!
# Verification of the image-analyzer metadata and analysis services

Shallow embedding of `src/services/exifService.ts` and
`src/services/geminiService.ts`.  JavaScript runtime values are modelled by
`JsValue`; numbers are rationals (on the inputs considered here every
arithmetic operation the sources perform is exact in IEEE doubles, so exact
rational arithmetic is a faithful model), with a separate `vNaN` marker for
NaN.  Platform builtins used by the sources (`parseFloat`, `parseInt`,
`JSON.parse`, `JSON.stringify`, `toFixed`, `Intl.DateTimeFormat`, `Date`
component rollover) are modelled explicitly below, next to their uses.
-/

/-- A JavaScript runtime value. -/
inductive JsValue where
  | vNull
  | vUndefined
  | vNaN
  | vNum (q : ℚ)
  | vStr (s : String)
  | vBool (b : Bool)
  | vArr (xs : List JsValue)
  | vObj (fs : List (String × JsValue))
deriving Repr

namespace JsValue

/-- JavaScript truthiness of a value. -/
def truthy : JsValue → Bool
  | vNull => false
  | vUndefined => false
  | vNaN => false
  | vNum q => q != 0
  | vStr s => s != ""
  | vBool b => b
  | vArr _ => true
  | vObj _ => true

/-- `typeof v === "object"` (true for null, arrays and plain objects). -/
def typeofObject : JsValue → Bool
  | vNull => true
  | vArr _ => true
  | vObj _ => true
  | _ => false

/-- A primitive in the sense of the spec's flat-value invariant:
string, number (including NaN), boolean, null or undefined —
never an object or an array. -/
def isPrim : JsValue → Bool
  | vArr _ => false
  | vObj _ => false
  | _ => true

end JsValue

/-! ## Models of JavaScript number and string builtins -/

/-- Decimal rendering of a rational whose reduced denominator divides a power
of ten — which is the case for every number the sources print (they all come
from decimal literals via `parseFloat`/`parseInt` or from `toFixed` output).
Models JavaScript `Number.prototype.toString` on those values; a rational
outside that class is rendered as `num/den` (unreachable from the sources). -/
def numToStr (q : ℚ) : String :=
  if q.den = 1 then toString q.num
  else
    match (List.range 40).find? (fun e => q.den ∣ 10 ^ e) with
    | some e =>
        let scaled : ℤ := q.num * (10 ^ e / (q.den : ℤ))
        let sign := if scaled < 0 then "-" else ""
        let n := scaled.natAbs
        let ip := n / 10 ^ e
        let fp := n % 10 ^ e
        let fpStr := toString fp
        let fpPad := String.mk (List.replicate (e - fpStr.length) '0') ++ fpStr
        let fpTrim := String.mk (fpPad.data.reverse.dropWhile (· = '0')).reverse
        sign ++ toString ip ++ "." ++ fpTrim
    | none => toString q.num ++ "/" ++ toString q.den

/-- `x.toFixed(2)` for a non-negative rational: round to hundredths, ties
toward the larger integer (ECMA-262: "pick the larger n"), always printing
two decimal places. -/
def toFixed2 (q : ℚ) : String :=
  let n : ℕ := (⌊q * 100 + 1 / 2⌋).toNat
  let frac := n % 100
  let fracStr := if frac < 10 then "0" ++ toString frac else toString frac
  toString (n / 100) ++ "." ++ fracStr

/-- `Number.parseFloat(x.toFixed(2)).toString()` for a non-negative rational:
like `toFixed2` but with trailing fractional zeros (and a bare point) removed,
which is exactly what re-parsing and re-printing the number does. -/
def toFixed2Trim (q : ℚ) : String :=
  let n : ℕ := (⌊q * 100 + 1 / 2⌋).toNat
  let frac := n % 100
  if frac = 0 then toString (n / 100)
  else if frac % 10 = 0 then toString (n / 100) ++ "." ++ toString (frac / 10)
  else if frac < 10 then toString (n / 100) ++ ".0" ++ toString frac
  else toString (n / 100) ++ "." ++ toString frac

/-- JavaScript whitespace characters recognised by `parseFloat`/`parseInt`. -/
def jsWhitespace (c : Char) : Bool :=
  c = ' ' || c = '\t' || c = '\n' || c = '\r' || c = '\x0b' || c = '\x0c'

/-- Digit characters `0`–`9` to their value. -/
def digitVal (c : Char) : Option ℕ :=
  if '0' ≤ c ∧ c ≤ '9' then some (c.toNat - '0'.toNat) else none

/-- Longest leading run of decimal digits, as (digit count, value, rest). -/
def takeDigits : List Char → ℕ × ℕ × List Char
  | [] => (0, 0, [])
  | c :: cs =>
      match digitVal c with
      | none => (0, 0, c :: cs)
      | some d =>
          let (k, v, rest) := takeDigits cs
          (k + 1, d * 10 ^ k + v, rest)

/-- Model of `Number.parseFloat` applied to a string: skip leading
whitespace, optional sign, then the longest prefix of the form
`digits[.digits][(e|E)[sign]digits]` (at least one mantissa digit).
`none` models a NaN result.  (`Infinity` literals are not modelled; no
source call site can receive one.) -/
def jsParseFloat (s : String) : Option ℚ :=
  let cs := s.data.dropWhile jsWhitespace
  let (neg, cs) :=
    match cs with
    | '-' :: rest => (true, rest)
    | '+' :: rest => (false, rest)
    | _ => (false, cs)
  let (ik, iv, cs) := takeDigits cs
  let (fk, fv, cs) :=
    match cs with
    | '.' :: rest =>
        let (k, v, r) := takeDigits rest
        (k, v, r)
    | _ => (0, 0, cs)
  if ik = 0 ∧ fk = 0 then none
  else
    let mant : ℚ := (iv : ℚ) + (fv : ℚ) / 10 ^ fk
    let expo : ℤ :=
      match cs with
      | 'e' :: rest | 'E' :: rest =>
          let (eneg, rest) :=
            match rest with
            | '-' :: r => (true, r)
            | '+' :: r => (false, r)
            | _ => (false, rest)
          let (ek, ev, _) := takeDigits rest
          if ek = 0 then 0 else if eneg then -(ev : ℤ) else (ev : ℤ)
      | _ => 0
    let m := mant * (10 : ℚ) ^ expo
    some (if neg then -m else m)

/-- Model of `Number.parseInt(s, 10)`: skip leading whitespace, optional
sign, then the longest prefix of decimal digits (at least one, else NaN,
modelled as `none`). -/
def jsParseInt10 (s : String) : Option ℤ :=
  let cs := s.data.dropWhile jsWhitespace
  let (neg, cs) :=
    match cs with
    | '-' :: rest => (true, rest)
    | '+' :: rest => (false, rest)
    | _ => (false, cs)
  let (ik, iv, _) := takeDigits cs
  if ik = 0 then none
  else some (if neg then -(iv : ℤ) else (iv : ℤ))

mutual

/-- JavaScript `ToString` of a value (used by `parseFloat`'s implicit
argument coercion and by template literals). -/
def jsToStr : JsValue → String
  | .vNull => "null"
  | .vUndefined => "undefined"
  | .vNaN => "NaN"
  | .vNum q => numToStr q
  | .vStr s => s
  | .vBool b => if b then "true" else "false"
  | .vArr xs => jsToStrJoin xs
  | .vObj _ => "[object Object]"

/-- `Array.prototype.join(",")`: null/undefined elements render empty. -/
def jsToStrJoin : List JsValue → String
  | [] => ""
  | [x] =>
      match x with
      | .vNull => ""
      | .vUndefined => ""
      | _ => jsToStr x
  | x :: y :: rest =>
      (match x with
       | .vNull => ""
       | .vUndefined => ""
       | _ => jsToStr x) ++ "," ++ jsToStrJoin (y :: rest)

end

/-- Escape a string body for JSON output. -/
def jsonEscape (s : String) : String :=
  s.data.foldl
    (fun acc c =>
      acc ++
        (if c = '"' then "\\\""
         else if c = '\\' then "\\\\"
         else if c = '\n' then "\\n"
         else if c = '\t' then "\\t"
         else if c = '\r' then "\\r"
         else String.singleton c))
    ""

mutual

/-- Model of `JSON.stringify` (the sources only apply it to arrays and plain
objects; NaN serialises as `null`, undefined array elements as `null`,
undefined object members are skipped). -/
def jsonStringify : JsValue → String
  | .vNull => "null"
  | .vUndefined => "null"
  | .vNaN => "null"
  | .vNum q => numToStr q
  | .vStr s => "\"" ++ jsonEscape s ++ "\""
  | .vBool b => if b then "true" else "false"
  | .vArr xs => "[" ++ jsonStringifyList xs ++ "]"
  | .vObj fs => "\x7b" ++ jsonStringifyObj fs ++ "\x7d"

def jsonStringifyList : List JsValue → String
  | [] => ""
  | [x] => jsonStringify x
  | x :: y :: rest => jsonStringify x ++ "," ++ jsonStringifyList (y :: rest)

def jsonStringifyObj : List (String × JsValue) → String
  | [] => ""
  | [(k, v)] => "\"" ++ jsonEscape k ++ "\":" ++ jsonStringify v
  | (k, v) :: p :: rest =>
      "\"" ++ jsonEscape k ++ "\":" ++ jsonStringify v ++ "," ++
        jsonStringifyObj (p :: rest)

end

/-! ## Civil calendar arithmetic (model of the JS `Date` component rollover)

`new Date(y, m, d, hh, mm, ss)` normalises out-of-range components by
rolling them over; these are the standard proleptic-Gregorian conversions
(days counted from 1970-01-01). -/

/-- Serial day number of a civil date (`m ∈ [1,12]`). -/
def daysFromCivil (y m d : ℤ) : ℤ :=
  let y2 := if m ≤ 2 then y - 1 else y
  let era := Int.ediv y2 400
  let yoe := y2 - era * 400
  let mp := Int.emod (m + 9) 12
  let doy := Int.ediv (153 * mp + 2) 5 + d - 1
  let doe := yoe * 365 + Int.ediv yoe 4 - Int.ediv yoe 100 + doy
  era * 146097 + doe - 719468

/-- Civil date `(year, month, day)` of a serial day number. -/
def civilFromDays (z : ℤ) : ℤ × ℤ × ℤ :=
  let z2 := z + 719468
  let era := Int.ediv z2 146097
  let doe := Int.emod z2 146097
  let yoe :=
    Int.ediv (doe - Int.ediv doe 1460 + Int.ediv doe 36524 - Int.ediv doe 146096) 365
  let y := yoe + era * 400
  let doy := doe - (365 * yoe + Int.ediv yoe 4 - Int.ediv yoe 100)
  let mp := Int.ediv (5 * doy + 2) 153
  let d := doy - Int.ediv (153 * mp + 2) 5 + 1
  let m := mp + (if mp < 10 then 3 else -9)
  (y + (if m ≤ 2 then 1 else 0), m, d)

/-- The wall-clock components the `Intl` formatter reads from a `Date`. -/
structure DateParts where
  year : ℤ
  month : ℤ
  day : ℤ
  hour : ℤ
  minute : ℤ
deriving Repr, DecidableEq

/-- Model of `new Date(y, monthIndex, d, hh, mm, ss)`: two-digit years map
to 1900+y, every component rolls over into its neighbours. -/
def jsDateOfComponents (y monthIndex d hh mm ss : ℤ) : DateParts :=
  let y2 := if 0 ≤ y ∧ y ≤ 99 then y + 1900 else y
  let ym := y2 * 12 + monthIndex
  let ny := Int.ediv ym 12
  let nm := Int.emod ym 12 + 1
  let totalSec := hh * 3600 + mm * 60 + ss
  let z := daysFromCivil ny nm 1 + (d - 1) + Int.ediv totalSec 86400
  let secOfDay := Int.emod totalSec 86400
  let c := civilFromDays z
  { year := c.1, month := c.2.1, day := c.2.2,
    hour := Int.ediv secOfDay 3600, minute := Int.ediv (Int.emod secOfDay 3600) 60 }

/-- English month names (the fixed `en-US` locale data). -/
def monthNames : List String :=
  ["January", "February", "March", "April", "May", "June", "July",
   "August", "September", "October", "November", "December"]

/-- Zero-pad a (non-negative, < 100) integer to two digits. -/
def pad2 (n : ℤ) : String :=
  if n < 10 then "0" ++ toString n else toString n

/-- Model of `Intl.DateTimeFormat("en-US", {year: "numeric", month: "long",
day: "numeric", hour: "2-digit", minute: "2-digit"}).format(date)`:
`<Month name> <day>, <year>, <hh>:<mm> <AM|PM>` on a 12-hour clock.
(`jsDateOfComponents` only produces months in `[1, 12]`, where the `% 12`
index reduction is the identity; it only makes totality evident.) -/
def intlFormatEnUS (p : DateParts) : String :=
  let hmod := Int.emod p.hour 12
  let hr := if hmod = 0 then 12 else hmod
  let ap := if Int.emod p.hour 24 < 12 then "AM" else "PM"
  monthNames.getD ((p.month - 1).toNat % 12) "January" ++ " " ++ toString p.day ++ ", " ++
    toString p.year ++ ", " ++ pad2 hr ++ ":" ++ pad2 p.minute ++ " " ++ ap

/-! ## `exifService.ts` -/

/-- `safeValue` (exifService.ts:8): convert any value to a string/number
primitive; null/undefined map to null, booleans to `"true"`/`"false"`,
objects and arrays to their JSON serialisation. -/
def safeValue : JsValue → JsValue
  | .vNull => .vNull
  | .vUndefined => .vNull
  | .vStr s => .vStr s
  | .vNum q => .vNum q
  | .vNaN => .vNaN
  | .vBool b => .vStr (if b then "true" else "false")
  | .vArr xs => .vStr (jsonStringify (.vArr xs))
  | .vObj fs => .vStr (jsonStringify (.vObj fs))

/-- The unit names of `formatFileSize`. -/
def sizeUnits : List String := ["Bytes", "KB", "MB", "GB"]

/-- `formatFileSize` (exifService.ts:38).  The source computes the unit index
as `Math.floor(Math.log(bytes) / Math.log(1024))`, i.e. the floor of the
real base-1024 logarithm, which for positive integers is `Nat.log 1024`;
`sizes[i]` for `i ≥ 4` is JavaScript `undefined`, which the template literal
renders as the string `"undefined"`. -/
def formatFileSize (bytes : ℕ) : String :=
  if bytes = 0 then "0 Bytes"
  else
    toFixed2Trim ((bytes : ℚ) / 1024 ^ Nat.log 1024 bytes) ++ " " ++
      sizeUnits.getD (Nat.log 1024 bytes) "undefined"

/-- The fixed-width pattern of exifService.ts:57, a literal-by-literal
transcription of `^(\d{4}):(\d{2}):(\d{2})\s(\d{2}):(\d{2}):(\d{2})$`:
on a match, the six captured numeric groups. -/
def exifDateMatch (s : String) : Option (ℕ × ℕ × ℕ × ℕ × ℕ × ℕ) :=
  match s.data with
  | [y1, y2, y3, y4, c1, o1, o2, c2, d1, d2, w, h1, h2, c3, i1, i2, c4, s1, s2] =>
      match digitVal y1, digitVal y2, digitVal y3, digitVal y4, digitVal o1,
            digitVal o2, digitVal d1, digitVal d2, digitVal h1, digitVal h2,
            digitVal i1, digitVal i2, digitVal s1, digitVal s2 with
      | some a1, some a2, some a3, some a4, some b1, some b2, some e1, some e2,
        some f1, some f2, some g1, some g2, some j1, some j2 =>
          if c1 = ':' ∧ c2 = ':' ∧ c3 = ':' ∧ c4 = ':' ∧ jsWhitespace w then
            some (a1 * 1000 + a2 * 100 + a3 * 10 + a4,
                  b1 * 10 + b2, e1 * 10 + e2, f1 * 10 + f2,
                  g1 * 10 + g2, j1 * 10 + j2)
          else none
      | _, _, _, _, _, _, _, _, _, _, _, _, _, _ => none
  | _ => none

/-- `formatExifDate` (exifService.ts:53) on a string argument.  The `catch`
branch of the source is dead code — neither the `Date` constructor nor
`Intl.DateTimeFormat.format` throws on any number inputs — so the model has
no error path. -/
def formatExifDate (dateString : String) : String :=
  if dateString = "" then ""
  else
    match exifDateMatch dateString with
    | none => dateString
    | some (y, mo, d, hh, mi, ss) =>
        intlFormatEnUS
          (jsDateOfComponents (y : ℤ) ((mo : ℤ) - 1) (d : ℤ) (hh : ℤ) (mi : ℤ) (ss : ℤ))

/-- `formatExifDate` as invoked at exifService.ts:174 on an arbitrary
`safeValue` result: a falsy argument returns `""` (the `!dateString` guard),
a truthy string proceeds, and a truthy non-string makes `.match` throw a
`TypeError` (modelled as `none`). -/
def formatExifDateVal (v : JsValue) : Option String :=
  if ¬ v.truthy then some ""
  else
    match v with
    | .vStr s => some (formatExifDate s)
    | _ => none

/-- A flat JavaScript object: field name to value, in insertion order,
keys unique by construction. -/
abbrev Record := List (String × JsValue)

/-- Property read `r[k]`: the value, or `none` when the key is absent
(JS would yield `undefined`). -/
def rget (r : Record) (k : String) : Option JsValue :=
  match r with
  | [] => none
  | p :: rest => if p.1 == k then some p.2 else rget rest k

/-- Property write `r[k] = v`: overwrite in place, or append a new key. -/
def rset (r : Record) (k : String) (v : JsValue) : Record :=
  match r with
  | [] => [(k, v)]
  | p :: rest => if p.1 == k then (k, v) :: rest else p :: rset rest k v

/-- Truthiness of `r[k]` (an absent key reads as `undefined`, falsy). -/
def rtruthy (r : Record) (k : String) : Bool :=
  match rget r k with
  | some v => v.truthy
  | none => false

/-- Spread merge `{...a, ...b}`: every entry of `b` written over `a`,
in order. -/
def mergeSpread (a b : Record) : Record :=
  match b with
  | [] => a
  | p :: rest => mergeSpread (rset a p.1 p.2) rest

/-- The decoder's tag map: tag name to the tag's `description` value.
Presence of a key models presence of the (always truthy) tag object. -/
abbrev Tags := List (String × JsValue)

/-- Is a decoder tag-reference value strictly equal (`===`) to a string? -/
def strictEqStr (v : JsValue) (s : String) : Bool :=
  match v with
  | .vStr t => t == s
  | _ => false

/-- One well-known-tag step: if `srcKey` is a decoded tag, write `f` of its
description under `dstKey` (the shape of exifService.ts:164–195 blocks). -/
def stepTag (tags : Tags) (srcKey dstKey : String) (f : JsValue → JsValue)
    (r : Record) : Record :=
  match rget tags srcKey with
  | some d => rset r dstKey (f d)
  | none => r

/-- FNumber conversion (exifService.ts:184–185): `Number.parseFloat` of the
description; a NaN parse stores `undefined`. -/
def parsedFloatOrMissing (d : JsValue) : JsValue :=
  match jsParseFloat (jsToStr d) with
  | some q => .vNum q
  | none => .vUndefined

/-- ISO conversion (exifService.ts:189–190): `Number.parseInt(..., 10)`;
a NaN parse stores `undefined`. -/
def parsedIntOrMissing (d : JsValue) : JsValue :=
  match jsParseInt10 (jsToStr d) with
  | some n => .vNum n
  | none => .vUndefined

/-- The GPS block (exifService.ts:197–223): requires all four of
latitude/longitude tag and reference to be present; the reference is
compared with `===` against `"N"` / `"E"`; an unparseable coordinate stores
NaN (the coordinates have no NaN guard), an unparseable altitude stores
`undefined`.  Nothing in the block can throw, so its inner catch is dead. -/
def gpsStep (tags : Tags) (r : Record) : Record :=
  match rget tags "GPSLatitude", rget tags "GPSLatitudeRef",
        rget tags "GPSLongitude", rget tags "GPSLongitudeRef" with
  | some dLat, some dLatRef, some dLng, some dLngRef =>
      let r := rset r "gpsLatitude"
        (match jsParseFloat (jsToStr dLat) with
         | some q => .vNum (if strictEqStr dLatRef "N" then q else -q)
         | none => .vNaN)
      let r := rset r "gpsLongitude"
        (match jsParseFloat (jsToStr dLng) with
         | some q => .vNum (if strictEqStr dLngRef "E" then q else -q)
         | none => .vNaN)
      match rget tags "GPSAltitude" with
      | some dAlt => rset r "gpsAltitude" (parsedFloatOrMissing dAlt)
      | none => r
  | _, _, _, _ => r

/-- An EXIF-reported dimension (exifService.ts:226–238): written only when
the image decode has not already set the field on `fileInfo`, and only when
the parse is not NaN (a NaN parse skips the assignment entirely). -/
def dimStep (tags : Tags) (srcKey dstKey : String) (fiTruthy : Bool)
    (r : Record) : Record :=
  match rget tags srcKey with
  | some d =>
      if ¬ fiTruthy then
        match jsParseInt10 (jsToStr d) with
        | some n => rset r dstKey (.vNum n)
        | none => r
      else r
  | none => r

/-- The merge loop (exifService.ts:240–245): every tag whose key is not
already truthy in the record and whose description is not `undefined` is
added verbatim under its own key, `safeValue`-coerced. -/
def mergeLoop (tags : Tags) (r : Record) : Record :=
  match tags with
  | [] => r
  | p :: rest =>
      mergeLoop rest
        (if rtruthy r p.1 then r
         else
           match p.2 with
           | .vUndefined => r
           | d => rset r p.1 (safeValue d))

/-- The final safety sweep on one value (exifService.ts:247–252):
re-serialise any non-null object-typed value to its JSON string. -/
def sweepVal : JsValue → JsValue
  | .vArr xs => .vStr (jsonStringify (.vArr xs))
  | .vObj fs => .vStr (jsonStringify (.vObj fs))
  | v => v

/-- The final safety sweep over the whole record. -/
def sweepRecord (r : Record) : Record :=
  r.map (fun p => (p.1, sweepVal p.2))

/-- The tail of the conversion after the GPS block: EXIF dimensions, merge
loop, final sweep (exifService.ts:225–252). -/
def processTagsTail (tags : Tags) (fiWidthTruthy fiHeightTruthy : Bool)
    (r : Record) : Record :=
  sweepRecord
    (mergeLoop tags
      (dimStep tags "ImageHeight" "imageHeight" fiHeightTruthy
        (dimStep tags "ImageWidth" "imageWidth" fiWidthTruthy r)))

/-- exifService.ts:178–252: the part of the tag conversion after the
`DateTime` handling, in source order: ExposureTime, FNumber,
ISOSpeedRatings, FocalLength, the GPS block, then the tail.
`fiWidthTruthy`/`fiHeightTruthy` give the truthiness of
`fileInfo.imageWidth`/`fileInfo.imageHeight` at the time the EXIF callback
runs (set only if the image-dimension load already completed). -/
def processTagsRest (tags : Tags) (fiWidthTruthy fiHeightTruthy : Bool)
    (r0 : Record) : Record :=
  processTagsTail tags fiWidthTruthy fiHeightTruthy
    (gpsStep tags
      (stepTag tags "FocalLength" "focalLength" safeValue
        (stepTag tags "ISOSpeedRatings" "iso" parsedIntOrMissing
          (stepTag tags "FNumber" "fNumber" parsedFloatOrMissing
            (stepTag tags "ExposureTime" "exposureTime" safeValue r0)))))

/-- The `DateTime` handling (exifService.ts:172–176): format the coerced
description and keep the original; the boolean is `false` when
`formatExifDate`'s `.match` threw (truthy non-string coercion), leaving the
record as it was. -/
def dateTimeStep (tags : Tags) (r : Record) : Record × Bool :=
  match rget tags "DateTime" with
  | some d =>
      let raw := safeValue d
      match formatExifDateVal raw with
      | some fmt => (rset (rset r "dateTime" (.vStr fmt)) "rawDateTime" raw, true)
      | none => (r, false)
  | none => (r, true)

/-- exifService.ts:161–252: the whole conversion of a decoded tag map into
the `exifData` record.  The boolean is `false` when the conversion threw
midway (only the `DateTime` step can throw); in that case the record holds
the assignments made before the throw, and the caller's `catch` resolves
with exactly that partial record. -/
def processTags (tags : Tags) (fiWidthTruthy fiHeightTruthy : Bool) :
    Record × Bool :=
  let r := stepTag tags "Model" "model" safeValue
    (stepTag tags "Make" "make" safeValue [])
  match dateTimeStep tags r with
  | (r2, true) => (processTagsRest tags fiWidthTruthy fiHeightTruthy r2, true)
  | (r2, false) => (r2, false)

/-- The inputs `extractExifData` reads off the `File` handle. -/
structure FileInfo where
  name : String
  size : ℕ
  mime : String

/-- `name.split(".")` on the underlying characters. -/
def splitOnDot : List Char → List (List Char)
  | [] => [[]]
  | c :: rest =>
      if c = '.' then [] :: splitOnDot rest
      else
        match splitOnDot rest with
        | [] => [[c]]
        | p :: ps => (c :: p) :: ps

/-- `imageFile.name.split(".").pop()?.toLowerCase() || ""` (the `|| ""` is
the identity here: `pop` of a `split` result never yields `undefined`, and
a falsy popped string is already `""`). -/
def fileExtOf (name : String) : String :=
  String.mk (((splitOnDot name.data).getLastD []).map Char.toLower)

/-- The five file-attribute fields of exifService.ts:94–100. -/
def fileAttrRecord (f : FileInfo) : Record :=
  [("fileName", .vStr f.name),
   ("fileSize", .vStr (formatFileSize f.size)),
   ("fileSizeBytes", .vNum f.size),
   ("fileType", .vStr f.mime),
   ("fileExtension", .vStr (fileExtOf f.name))]

/-- `(img.width / img.height).toFixed(2)`; division of two JS numbers, so a
zero height gives Infinity (or NaN for 0/0), which `toFixed` renders as the
corresponding word. -/
def aspectStr (w h : ℕ) : String :=
  if h = 0 then (if w = 0 then "NaN" else "Infinity")
  else toFixed2 ((w : ℚ) / h)

/-- Outcome of the EXIF `FileReader` + `ExifReader.load` path. -/
inductive TagReadOutcome where
  | readError
  | loadWithoutResult
  | loadTags (tags : Option Tags)

/-- Outcome of the data-URL read + `Image` load path. -/
inductive DimsOutcome where
  | urlReadError
  | urlLoadWithoutResult
  | imgLoadError
  | imgLoad (w h : ℕ)

/-- `fileInfo` as it stands once the dimension path has finished
(exifService.ts:120–144): the attribute fields, plus width/height/aspect
when the image loaded. -/
def fileInfoRecord (f : FileInfo) (dims : DimsOutcome) : Record :=
  match dims with
  | .imgLoad w h =>
      fileAttrRecord f ++
        [("imageWidth", .vNum w), ("imageHeight", .vNum h),
         ("aspectRatio", .vStr (aspectStr w h))]
  | _ => fileAttrRecord f

/-- `extractExifData` (exifService.ts:90): result of the promise as a
function of the two asynchronous outcomes.  `none` means the promise never
settles (which happens when the data-URL read completes without a result:
the `return` at line 121 leaves `loadedImage` unset forever).
`imageLoadedFirst` says whether the dimension path completed before the EXIF
callback ran (the two callbacks may run in either order; it matters only for
the `!fileInfo.imageWidth` checks).  The `reject` at line 152 fires exactly
in the `loadWithoutResult` case; the outer catch (line 271) is dead since
nothing in the synchronous setup throws. -/
def extractExifData (f : FileInfo) (tagsOut : TagReadOutcome)
    (dims : DimsOutcome) (imageLoadedFirst : Bool) :
    Option (Except String Record) :=
  match tagsOut with
  | .loadWithoutResult => some (.error "Failed to read file")
  | .readError =>
      match dims with
      | .urlLoadWithoutResult => none
      | _ => some (.ok (mergeSpread (fileInfoRecord f dims) []))
  | .loadTags none =>
      match dims with
      | .urlLoadWithoutResult => none
      | _ => some (.ok (mergeSpread (fileInfoRecord f dims) []))
  | .loadTags (some tags) =>
      let fiW := match dims, imageLoadedFirst with
        | .imgLoad w _, true => w ≠ 0
        | _, _ => false
      let fiH := match dims, imageLoadedFirst with
        | .imgLoad _ h, true => h ≠ 0
        | _, _ => false
      match dims with
      | .urlLoadWithoutResult => none
      | _ =>
          some (.ok (mergeSpread (fileInfoRecord f dims)
            (processTags tags fiW fiH).1))

/-! ## `geminiService.ts` -/

/-- `MAX_FILE_SIZE` (geminiService.ts:9). -/
def MAX_FILE_SIZE : ℕ := 20 * 1024 * 1024

/-- The `FileTooLargeError` message (geminiService.ts:12–21).
`fileSize / (1024 * 1024)` is exact in doubles for any realistic size
(below 2^53), so the rational model is faithful. -/
def fileTooLargeMessage (fileSize : ℕ) : String :=
  "Image file size (" ++ toFixed2 ((fileSize : ℚ) / (1024 * 1024)) ++
    " MB) exceeds the 20MB limit for AI analysis."

/-- Template-literal interpolation of `r[k]` (an absent key is `undefined`,
which renders as the string `"undefined"`). -/
def rshow (r : Record) (k : String) : String :=
  match rget r k with
  | some v => jsToStr v
  | none => "undefined"

/-- The "File Information" rows of the static section table
(geminiService.ts:35–40): required keys and line template. -/
def fileInfoEntries : List (List String × (Record → String)) :=
  [(["fileName"], fun r => "File Name: " ++ rshow r "fileName"),
   (["fileSize"], fun r => "File Size: " ++ rshow r "fileSize"),
   (["fileType"], fun r => "File Type: " ++ rshow r "fileType"),
   (["fileExtension"], fun r => "File Extension: " ++ rshow r "fileExtension")]

/-- The "Image Information" rows (geminiService.ts:41–47); the dimensions
row requires both keys. -/
def imageInfoEntries : List (List String × (Record → String)) :=
  [(["imageWidth", "imageHeight"],
    fun r => "Dimensions: " ++ rshow r "imageWidth" ++ " × " ++
      rshow r "imageHeight" ++ " px"),
   (["aspectRatio"], fun r => "Aspect Ratio: " ++ rshow r "aspectRatio")]

/-- The "Camera Settings" rows (geminiService.ts:48–55); the camera row
requires both make and model. -/
def cameraEntries : List (List String × (Record → String)) :=
  [(["make", "model"],
    fun r => "Camera: " ++ rshow r "make" ++ " " ++ rshow r "model"),
   (["dateTime"], fun r => "Date Taken: " ++ rshow r "dateTime"),
   (["exposureTime"], fun r => "Exposure: " ++ rshow r "exposureTime" ++ "s"),
   (["fNumber"], fun r => "Aperture: f/" ++ rshow r "fNumber"),
   (["iso"], fun r => "ISO: " ++ rshow r "iso"),
   (["focalLength"], fun r => "Focal Length: " ++ rshow r "focalLength")]

/-- `sectionDefinitions` (geminiService.ts:34–56). -/
def sectionDefinitions : List (String × List (List String × (Record → String))) :=
  [("File Information", fileInfoEntries),
   ("Image Information", imageInfoEntries),
   ("Camera Settings", cameraEntries)]

/-- One section's qualifying lines (geminiService.ts:62–70): the rendered
rows whose required keys are all truthy. -/
def sectionLines (r : Record)
    (entries : List (List String × (Record → String))) : List String :=
  (entries.filter (fun e => e.1.all (rtruthy r))).map (fun e => e.2 r)

/-- One section's rendered block (geminiService.ts:60–74): `none` when no
row qualifies (the section is omitted entirely). -/
def sectionBlock (r : Record) (name : String)
    (entries : List (List String × (Record → String))) : Option String :=
  if (sectionLines r entries).isEmpty then none
  else some (name ++ ":\n" ++ String.intercalate "\n" (sectionLines r entries))

/-- The location section's text (geminiService.ts:79–88), built only when
both coordinates are truthy. -/
def locationBlock (r : Record) : String :=
  let loc := ["Location Information:\nCoordinates: " ++
    rshow r "gpsLatitude" ++ ", " ++ rshow r "gpsLongitude"]
  let loc := if rtruthy r "locationName" then
      loc ++ ["Location Name: " ++ rshow r "locationName"] else loc
  let loc := if rtruthy r "gpsAltitude" then
      loc ++ ["Altitude: " ++ rshow r "gpsAltitude"] else loc
  String.intercalate "\n" loc

/-- The list of rendered section blocks including the conditional location
section (geminiService.ts:59–89). -/
def promptSections (r : Record) : List String :=
  let base := sectionDefinitions.filterMap (fun sd => sectionBlock r sd.1 sd.2)
  if rtruthy r "gpsLatitude" && rtruthy r "gpsLongitude" then
    base ++ [locationBlock r]
  else base

/-- `formatExifDataForPrompt` (geminiService.ts:28). -/
def formatExifDataForPrompt (r : Record) : String :=
  if r.isEmpty then ""
  else String.intercalate "\n\n" (promptSections r)

/-! ### Tolerant JSON extraction from the model reply -/

/-- Does `s` start with `pat`? -/
def listStartsWith : List Char → List Char → Bool
  | [], _ => true
  | _ :: _, [] => false
  | p :: ps, c :: cs => p == c && listStartsWith ps cs

/-- Index of the first occurrence of `pat` in `s`. -/
def findSubIdx (pat : List Char) : List Char → Option ℕ
  | [] => if pat.isEmpty then some 0 else none
  | c :: rest =>
      if listStartsWith pat (c :: rest) then some 0
      else (findSubIdx pat rest).map (· + 1)

/-- Leftmost-match model of the regexes at geminiService.ts:177–178: find
the first position carrying `marker` that is followed (lazily) by a closing
`"\n```"`; the capture is the text between them. -/
def fencedCapture (marker : List Char) : List Char → Option (List Char)
  | [] => none
  | c :: rest =>
      if listStartsWith marker (c :: rest) then
        let after := (c :: rest).drop marker.length
        match findSubIdx "\n```".data after with
        | some i => some (after.take i)
        | none => fencedCapture marker rest
      else fencedCapture marker rest

/-- `jsonText` (geminiService.ts:177–180): the capture of the
language-tagged fence, else of the plain fence, else the whole reply — and,
because of the `jsonMatch[1] || text` truthiness check, an *empty* capture
also falls back to the whole reply. -/
def geminiJsonText (text : String) : String :=
  match fencedCapture "```json\n".data text.data with
  | some cap => if cap.isEmpty then text else String.mk cap
  | none =>
      match fencedCapture "```\n".data text.data with
      | some cap => if cap.isEmpty then text else String.mk cap
      | none => text

/-- JSON whitespace. -/
def jsonWS (c : Char) : Bool :=
  c = ' ' || c = '\t' || c = '\n' || c = '\r'

/-- Hexadecimal digit value. -/
def hexVal (c : Char) : Option ℕ :=
  if '0' ≤ c ∧ c ≤ '9' then some (c.toNat - '0'.toNat)
  else if 'a' ≤ c ∧ c ≤ 'f' then some (c.toNat - 'a'.toNat + 10)
  else if 'A' ≤ c ∧ c ≤ 'F' then some (c.toNat - 'A'.toNat + 10)
  else none

/-- JSON string body after the opening quote (fuelled recursion). -/
def jsonParseStr : ℕ → List Char → Option (String × List Char)
  | 0, _ => none
  | _ + 1, [] => none
  | fuel + 1, c :: rest =>
      if c = '"' then some ("", rest)
      else if c = '\\' then
        match rest with
        | [] => none
        | e :: rest2 =>
            let dec : Option (Char × List Char) :=
              if e = '"' then some ('"', rest2)
              else if e = '\\' then some ('\\', rest2)
              else if e = '/' then some ('/', rest2)
              else if e = 'b' then some ('\x08', rest2)
              else if e = 'f' then some ('\x0c', rest2)
              else if e = 'n' then some ('\n', rest2)
              else if e = 'r' then some ('\r', rest2)
              else if e = 't' then some ('\t', rest2)
              else if e = 'u' then
                match rest2 with
                | h1 :: h2 :: h3 :: h4 :: rest3 =>
                    match hexVal h1, hexVal h2, hexVal h3, hexVal h4 with
                    | some a, some b, some c2, some d =>
                        some (Char.ofNat (a * 4096 + b * 256 + c2 * 16 + d), rest3)
                    | _, _, _, _ => none
                | _ => none
              else none
            match dec with
            | some (ch, rest3) =>
                (jsonParseStr fuel rest3).map
                  (fun p => (String.singleton ch ++ p.1, p.2))
            | none => none
      else if c.toNat < 32 then none
      else
        (jsonParseStr fuel rest).map
          (fun p => (String.singleton c ++ p.1, p.2))

/-- JSON number grammar: `-? (0 | [1-9][0-9]*) (. [0-9]+)? ([eE][+-]?[0-9]+)?`. -/
def jsonParseNum (cs : List Char) : Option (ℚ × List Char) :=
  let (neg, cs1) :=
    match cs with
    | '-' :: rest => (true, rest)
    | _ => (false, cs)
  let (ik, iv, cs2) := takeDigits cs1
  if ik = 0 then none
  else if ik > 1 ∧ cs1.headD ' ' = '0' then none
  else
    let (fk, fv, cs3) :=
      match cs2 with
      | '.' :: rest =>
          let (k, v, r) := takeDigits rest
          (k, v, r)
      | _ => (0, 0, cs2)
    if (cs2.headD ' ' = '.') ∧ fk = 0 then none
    else
      let contExp : Option (ℤ × List Char) :=
        match cs3 with
        | 'e' :: rest | 'E' :: rest =>
            let (eneg, rest2) :=
              match rest with
              | '-' :: r => (true, r)
              | '+' :: r => (false, r)
              | _ => (false, rest)
            let (ek, ev, rest3) := takeDigits rest2
            if ek = 0 then none
            else some (if eneg then -(ev : ℤ) else (ev : ℤ), rest3)
        | _ => some (0, cs3)
      match contExp with
      | none => none
      | some (expo, rest) =>
          let m : ℚ := ((iv : ℚ) + (fv : ℚ) / 10 ^ fk) * (10 : ℚ) ^ expo
          some (if neg then -m else m, rest)

mutual

/-- Fuelled recursive-descent model of `JSON.parse` on a character list:
a value and the unconsumed remainder. -/
def jsonParseVal : ℕ → List Char → Option (JsValue × List Char)
  | 0, _ => none
  | fuel + 1, cs =>
      match cs.dropWhile jsonWS with
      | [] => none
      | c :: rest =>
          if c = 'n' then
            if listStartsWith "ull".data rest then some (.vNull, rest.drop 3) else none
          else if c = 't' then
            if listStartsWith "rue".data rest then some (.vBool true, rest.drop 3) else none
          else if c = 'f' then
            if listStartsWith "alse".data rest then some (.vBool false, rest.drop 4) else none
          else if c = '"' then
            (jsonParseStr (fuel + 1) rest).map (fun p => (.vStr p.1, p.2))
          else if c = '[' then
            match rest.dropWhile jsonWS with
            | ']' :: rest2 => some (.vArr [], rest2)
            | _ =>
                (jsonParseItems fuel rest).map (fun p => (.vArr p.1, p.2))
          else if c = '\x7b' then
            match rest.dropWhile jsonWS with
            | '\x7d' :: rest2 => some (.vObj [], rest2)
            | _ =>
                (jsonParseMembers fuel rest).map (fun p => (.vObj p.1, p.2))
          else
            (jsonParseNum (c :: rest)).map (fun p => (.vNum p.1, p.2))

/-- Array elements up to and including the closing bracket. -/
def jsonParseItems : ℕ → List Char → Option (List JsValue × List Char)
  | 0, _ => none
  | fuel + 1, cs =>
      match jsonParseVal fuel cs with
      | none => none
      | some (v, rest) =>
          match rest.dropWhile jsonWS with
          | ',' :: rest2 =>
              (jsonParseItems fuel rest2).map (fun p => (v :: p.1, p.2))
          | ']' :: rest2 => some ([v], rest2)
          | _ => none

/-- Object members up to and including the closing brace. -/
def jsonParseMembers : ℕ → List Char → Option (List (String × JsValue) × List Char)
  | 0, _ => none
  | fuel + 1, cs =>
      match cs.dropWhile jsonWS with
      | '"' :: rest =>
          match jsonParseStr (fuel + 1) rest with
          | none => none
          | some (k, rest2) =>
              match rest2.dropWhile jsonWS with
              | ':' :: rest3 =>
                  match jsonParseVal fuel rest3 with
                  | none => none
                  | some (v, rest4) =>
                      match rest4.dropWhile jsonWS with
                      | ',' :: rest5 =>
                          (jsonParseMembers fuel rest5).map
                            (fun p => ((k, v) :: p.1, p.2))
                      | '\x7d' :: rest5 => some ([(k, v)], rest5)
                      | _ => none
              | _ => none
      | _ => none

end

/-- Model of `JSON.parse(s)`: `none` models a thrown `SyntaxError`. -/
def jsonParse (s : String) : Option JsValue :=
  match jsonParseVal (2 * s.length + 8) s.data with
  | some (v, rest) => if (rest.dropWhile jsonWS).isEmpty then some v else none
  | none => none

/-- Property access `v[k]` on a value known not to be null/undefined
(duplicate JSON keys: the later one wins, as in `JSON.parse`).  Primitives
and arrays have no such own property, so the read yields `undefined`
(modelled `none`). -/
def jsGetField (v : JsValue) (k : String) : Option JsValue :=
  match v with
  | .vObj fs => ((fs.reverse).find? (fun p => p.1 == k)).map (fun p => p.2)
  | _ => none

/-- Nullish test: the values `??` replaces. -/
def nullish : JsValue → Bool
  | .vNull => true
  | .vUndefined => true
  | _ => false

/-- `x ?? dflt` where an absent property read is `undefined`. -/
def coalesce (v : Option JsValue) (dflt : JsValue) : JsValue :=
  match v with
  | some x => if nullish x then dflt else x
  | none => dflt

/-- The structured analysis result (geminiService.ts:183–188).  The
TypeScript type promises strings and lists, but the runtime values are
whatever the parsed JSON held, so each field is modelled as a `JsValue`. -/
structure ImageAnalysis where
  description : JsValue
  tags : JsValue
  hashtags : JsValue
  enhancementSuggestions : JsValue
deriving Repr

/-- The parse-failure fallback (geminiService.ts:192–197): the first 200
characters of the raw reply (`substring(0, 200)`) plus an ellipsis, and
empty lists. -/
def fallbackAnalysis (text : String) : ImageAnalysis :=
  { description := .vStr (text.take 200 ++ "...")
    tags := .vArr []
    hashtags := .vArr []
    enhancementSuggestions := .vArr [] }

/-- The reply-parsing step of `analyzeImageWithGemini`
(geminiService.ts:174–198): pick the JSON text (fenced block or whole
reply), `JSON.parse` it, read the four fields with `??` defaults; any throw
in that block (a parse error, or the property read on a parsed `null`)
lands in the catch and yields the fallback result. -/
def parseGeminiReply (text : String) : ImageAnalysis :=
  match jsonParse (geminiJsonText text) with
  | some .vNull => fallbackAnalysis text
  | some v =>
      { description := coalesce (jsGetField v "description")
          (.vStr "No description available")
        tags := coalesce (jsGetField v "tags") (.vArr [])
        hashtags := coalesce (jsGetField v "hashtags") (.vArr [])
        enhancementSuggestions :=
          coalesce (jsGetField v "enhancementSuggestions") (.vArr []) }
  | none => fallbackAnalysis text

/-- `analyzeImageWithGemini` (geminiService.ts:102) as a function of the
file's byte length and the model's textual reply.  The base64 conversion,
prompt assembly and network call are abstracted: `replyText` stands for the
awaited reply, and the returned boolean records whether the outbound model
call was reached (the size guard throws `FileTooLargeError` before it).
Network-failure propagation (line 199–202 rethrow) is outside this model. -/
def analyzeImageWithGemini (size : ℕ) (replyText : String) :
    Except String ImageAnalysis × Bool :=
  if size > MAX_FILE_SIZE then (.error (fileTooLargeMessage size), false)
  else (.ok (parseGeminiReply replyText), true)

/-! ## Claim-level definitions -/

/-- The hundredths integer displayed for byte count `b` at unit index `i`:
`b / 1024^i` rounded half-up to two decimals, in hundredths
(`⌊100·b/1024^i + 1/2⌋` as a natural division). -/
def displayCents (b i : ℕ) : ℕ :=
  (200 * b + 1024 ^ i) / (2 * 1024 ^ i)

/-- Formalisation of C2's asserted property at one nonzero byte count,
weakened by dropping the "smallest unit" requirement: *some* unit of the
four renders the size with a displayed numeric part in `[1.00, 1024.00)`
(in hundredths: `[100, 102400)`).  Refuting this weakening refutes the
claim a fortiori. -/
def sizeClaimAt (b : ℕ) : Prop :=
  ∃ i : Fin 4,
    formatFileSize b =
      toFixed2Trim ((b : ℚ) / 1024 ^ (i : ℕ)) ++ " " ++ sizeUnits.get i ∧
    100 ≤ displayCents b i ∧ displayCents b i < 102400

/-- The value kinds C8's claim enumerates: "string, number, or null"
(NaN is a number). -/
def isStrNumNull : JsValue → Bool
  | .vStr _ => true
  | .vNum _ => true
  | .vNaN => true
  | .vNull => true
  | _ => false

/-- The value kinds normalization actually produces: string, number
(including NaN), null, or undefined — never a boolean, object or array. -/
def isFlatValue : JsValue → Bool
  | .vStr _ => true
  | .vNum _ => true
  | .vNaN => true
  | .vNull => true
  | .vUndefined => true
  | _ => false

/-- All values of a record are flat. -/
def RecordFlat (r : Record) : Prop :=
  ∀ p ∈ r, isFlatValue p.2 = true

/-! # Theorems

General lemmas about the record operations, then one theorem per claim
(with witnesses and counterexamples). -/

theorem rget_rset_self (r : Record) (k : String) (v : JsValue) :
    rget (rset r k v) k = some v := by
  induction r with
  | nil => simp [rget, rset]
  | cons p rest ih =>
      by_cases h : p.1 = k
      · simp [rget, rset, h]
      · simp [rget, rset, h, ih]

theorem rget_rset_ne (r : Record) {k2 k : String} (h : k2 ≠ k) (v : JsValue) :
    rget (rset r k2 v) k = rget r k := by
  induction r with
  | nil => simp [rget, rset, h]
  | cons p rest ih =>
      by_cases hp : p.1 = k2
      · simp [rget, rset, hp, h]
      · by_cases hk : p.1 = k
        · simp [rget, rset, hp, hk, Ne.symm h]
        · simp [rget, rset, hp, hk, ih]

theorem rget_rset_isSome (r : Record) (k2 k : String) (v : JsValue)
    (h : (rget r k).isSome) : (rget (rset r k2 v) k).isSome := by
  by_cases hk : k2 = k
  · subst hk; simp [rget_rset_self]
  · rwa [rget_rset_ne r hk]

theorem rget_mergeSpread_isSome (b a : Record) (k : String)
    (h : (rget a k).isSome) : (rget (mergeSpread a b) k).isSome := by
  induction b generalizing a with
  | nil => simpa [mergeSpread]
  | cons p rest ih => exact ih _ (rget_rset_isSome _ _ _ _ h)

theorem rget_stepTag_ne (tags : Tags) (srcKey : String) {dstKey k : String}
    (f : JsValue → JsValue) (r : Record) (h : dstKey ≠ k) :
    rget (stepTag tags srcKey dstKey f r) k = rget r k := by
  unfold stepTag
  cases rget tags srcKey with
  | none => rfl
  | some d => exact rget_rset_ne r h _

theorem rget_dimStep_ne (tags : Tags) (srcKey : String) {dstKey k : String}
    (fi : Bool) (r : Record) (h : dstKey ≠ k) :
    rget (dimStep tags srcKey dstKey fi r) k = rget r k := by
  unfold dimStep
  cases rget tags srcKey with
  | none => rfl
  | some d =>
      cases fi with
      | true => rfl
      | false =>
          simp only [Bool.not_false, if_true]
          cases jsParseInt10 (jsToStr d) with
          | none => rfl
          | some n => exact rget_rset_ne r h _

theorem rget_gpsStep_ne (tags : Tags) {k : String} (r : Record)
    (h1 : "gpsLatitude" ≠ k) (h2 : "gpsLongitude" ≠ k)
    (h3 : "gpsAltitude" ≠ k) :
    rget (gpsStep tags r) k = rget r k := by
  unfold gpsStep
  cases rget tags "GPSLatitude" with
  | none => rfl
  | some dLat =>
  cases rget tags "GPSLatitudeRef" with
  | none => rfl
  | some dLatRef =>
  cases rget tags "GPSLongitude" with
  | none => rfl
  | some dLng =>
  cases rget tags "GPSLongitudeRef" with
  | none => rfl
  | some dLngRef =>
  simp only
  cases rget tags "GPSAltitude" with
  | none => rw [rget_rset_ne _ h2, rget_rset_ne _ h1]
  | some dAlt => rw [rget_rset_ne _ h3, rget_rset_ne _ h2, rget_rset_ne _ h1]

theorem rget_mergeLoop_of_missing (tags : Tags) (r : Record) (k : String)
    (h : rget tags k = none) : rget (mergeLoop tags r) k = rget r k := by
  induction tags generalizing r with
  | nil => rfl
  | cons p rest ih =>
      have hp : ¬ (p.1 == k) = true := by
        intro hb
        rw [rget, if_pos hb] at h
        exact Option.noConfusion h
      have hrest : rget rest k = none := by
        rwa [rget, if_neg hp] at h
      have hne : p.1 ≠ k := by simpa using hp
      have step : ∀ r' : Record,
          rget (if rtruthy r' p.1 then r'
            else match p.2 with
              | .vUndefined => r'
              | d => rset r' p.1 (safeValue d)) k = rget r' k := by
        intro r'
        by_cases ht : rtruthy r' p.1
        · simp [ht]
        · simp only [ht, if_false]
          cases p.2 <;> simp [rget_rset_ne r' hne]
      rw [mergeLoop, ih _ hrest, step r]

theorem rget_sweepRecord (r : Record) (k : String) :
    rget (sweepRecord r) k = (rget r k).map sweepVal := by
  induction r with
  | nil => rfl
  | cons p rest ih =>
      by_cases h : p.1 = k
      · simp [sweepRecord, rget, h]
      · simpa [sweepRecord, rget, h] using ih

theorem rget_processTagsTail (tags : Tags) (fw fh : Bool) (r : Record)
    (k : String) (h8 : "imageWidth" ≠ k) (h9 : "imageHeight" ≠ k)
    (hnc : rget tags k = none) :
    rget (processTagsTail tags fw fh r) k = (rget r k).map sweepVal := by
  unfold processTagsTail
  rw [rget_sweepRecord, rget_mergeLoop_of_missing _ _ _ hnc,
    rget_dimStep_ne _ _ _ _ h9, rget_dimStep_ne _ _ _ _ h8]

theorem rget_dateTimeStep_ne (tags : Tags) (r : Record) {k : String}
    (h1 : "dateTime" ≠ k) (h2 : "rawDateTime" ≠ k) :
    rget (dateTimeStep tags r).1 k = rget r k := by
  unfold dateTimeStep
  cases rget tags "DateTime" with
  | none => rfl
  | some d =>
      simp only
      cases formatExifDateVal (safeValue d) with
      | none => rfl
      | some fmt =>
          simp only
          rw [rget_rset_ne _ h2, rget_rset_ne _ h1]

theorem rget_append_left_isSome (a b : Record) (k : String)
    (h : (rget a k).isSome) : (rget (a ++ b) k).isSome := by
  induction a with
  | nil => simp [rget] at h
  | cons p rest ih =>
      by_cases hp : (p.1 == k) = true
      · simp [rget, hp]
      · rw [List.cons_append, rget, if_neg hp]
        rw [rget, if_neg hp] at h
        exact ih h

/-- C1: for every input file and every pair of asynchronous outcomes other
than the (platform-dead) "load event without a result", `extractExifData`
never rejects, and whenever its promise resolves, the record contains all
five file-attribute fields (name, formatted size, raw byte size, MIME type,
extension). -/
theorem extractExifData_never_raises (f : FileInfo) (tagsOut : TagReadOutcome)
    (dims : DimsOutcome) (ord : Bool)
    (h : tagsOut ≠ TagReadOutcome.loadWithoutResult) :
    (∀ e, extractExifData f tagsOut dims ord ≠ some (Except.error e)) ∧
    (∀ r, extractExifData f tagsOut dims ord = some (Except.ok r) →
      (rget r "fileName").isSome ∧ (rget r "fileSize").isSome ∧
      (rget r "fileSizeBytes").isSome ∧ (rget r "fileType").isSome ∧
      (rget r "fileExtension").isSome) := by
  have base : ∀ (dims : DimsOutcome) (x : Record),
      (rget (mergeSpread (fileInfoRecord f dims) x) "fileName").isSome ∧
      (rget (mergeSpread (fileInfoRecord f dims) x) "fileSize").isSome ∧
      (rget (mergeSpread (fileInfoRecord f dims) x) "fileSizeBytes").isSome ∧
      (rget (mergeSpread (fileInfoRecord f dims) x) "fileType").isSome ∧
      (rget (mergeSpread (fileInfoRecord f dims) x) "fileExtension").isSome := by
    intro dims x
    refine ⟨?_, ?_, ?_, ?_, ?_⟩ <;>
    · apply rget_mergeSpread_isSome
      cases dims <;> simp [fileInfoRecord, fileAttrRecord, rget]
  constructor
  · intro e
    cases tagsOut with
    | loadWithoutResult => exact absurd rfl h
    | readError => cases dims <;> simp [extractExifData]
    | loadTags o =>
        cases o with
        | none => cases dims <;> simp [extractExifData]
        | some tags => cases dims <;> simp [extractExifData]
  · intro r hr
    cases tagsOut with
    | loadWithoutResult => exact absurd rfl h
    | readError =>
        cases dims <;> simp only [extractExifData] at hr <;>
          first
          | exact Option.noConfusion hr
          | (injection hr with h1; injection h1 with h2; subst h2;
             exact base _ _)
    | loadTags o =>
        cases o with
        | none =>
            cases dims <;> simp only [extractExifData] at hr <;>
              first
              | exact Option.noConfusion hr
              | (injection hr with h1; injection h1 with h2; subst h2;
                 exact base _ _)
        | some tags =>
            cases dims <;> simp only [extractExifData] at hr <;>
              first
              | exact Option.noConfusion hr
              | (injection hr with h1; injection h1 with h2; subst h2;
                 exact base _ _)

/-- Witness for C1 at a concrete file and outcome pair. -/
theorem extractExifData_never_raises_witness :
    (∀ e, extractExifData ⟨"photo.JPG", 1536, "image/jpeg"⟩
        (TagReadOutcome.loadTags (some [("Make", JsValue.vStr "Canon")]))
        (DimsOutcome.imgLoad 100 50) true ≠ some (Except.error e)) ∧
    (∀ r, extractExifData ⟨"photo.JPG", 1536, "image/jpeg"⟩
        (TagReadOutcome.loadTags (some [("Make", JsValue.vStr "Canon")]))
        (DimsOutcome.imgLoad 100 50) true = some (Except.ok r) →
      (rget r "fileName").isSome ∧ (rget r "fileSize").isSome ∧
      (rget r "fileSizeBytes").isSome ∧ (rget r "fileType").isSome ∧
      (rget r "fileExtension").isSome) :=
  extractExifData_never_raises ⟨"photo.JPG", 1536, "image/jpeg"⟩ _ _ true
    (by simp)

theorem safeValue_flat (v : JsValue) : isFlatValue (safeValue v) = true := by
  cases v <;> rfl

theorem flat_rset (r : Record) :
    RecordFlat r → ∀ (v : JsValue), isFlatValue v = true → ∀ k,
      RecordFlat (rset r k v) := by
  induction r with
  | nil =>
      intro _ v hv k p hp
      simp only [rset, List.mem_singleton] at hp
      subst hp
      exact hv
  | cons q rest ih =>
      intro hr v hv k p hp
      have hq := hr q (List.mem_cons_self _ _)
      have hrest : RecordFlat rest := fun x hx => hr x (List.mem_cons_of_mem _ hx)
      by_cases hqk : (q.1 == k) = true
      · rw [rset, if_pos hqk] at hp
        rcases List.mem_cons.mp hp with h | h
        · subst h; exact hv
        · exact hrest p h
      · rw [rset, if_neg hqk] at hp
        rcases List.mem_cons.mp hp with h | h
        · subst h; exact hq
        · exact ih hrest v hv k p h

theorem flat_mergeSpread (b : Record) :
    ∀ a : Record, RecordFlat a → RecordFlat b →
      RecordFlat (mergeSpread a b) := by
  induction b with
  | nil => intro a ha _; exact ha
  | cons p rest ih =>
      intro a ha hb
      have hp := hb p (List.mem_cons_self _ _)
      have hrest : RecordFlat rest := fun x hx => hb x (List.mem_cons_of_mem _ hx)
      exact ih _ (flat_rset a ha p.2 hp p.1) hrest

theorem flat_stepTag (tags : Tags) (srcKey dstKey : String)
    {f : JsValue → JsValue} (hf : ∀ d, isFlatValue (f d) = true)
    {r : Record} (hr : RecordFlat r) :
    RecordFlat (stepTag tags srcKey dstKey f r) := by
  unfold stepTag
  cases rget tags srcKey with
  | none => exact hr
  | some d => exact flat_rset r hr (f d) (hf d) dstKey

theorem flat_parsedFloatOrMissing (d : JsValue) :
    isFlatValue (parsedFloatOrMissing d) = true := by
  unfold parsedFloatOrMissing
  cases jsParseFloat (jsToStr d) <;> rfl

theorem flat_parsedIntOrMissing (d : JsValue) :
    isFlatValue (parsedIntOrMissing d) = true := by
  unfold parsedIntOrMissing
  cases jsParseInt10 (jsToStr d) <;> rfl

theorem flat_gpsStep (tags : Tags) {r : Record} (hr : RecordFlat r) :
    RecordFlat (gpsStep tags r) := by
  unfold gpsStep
  cases rget tags "GPSLatitude" with
  | none => exact hr
  | some dLat =>
  cases rget tags "GPSLatitudeRef" with
  | none => exact hr
  | some dLatRef =>
  cases rget tags "GPSLongitude" with
  | none => exact hr
  | some dLngVal =>
  cases rget tags "GPSLongitudeRef" with
  | none => exact hr
  | some dLngRef =>
  simp only
  have h1 := flat_rset r hr
    (match jsParseFloat (jsToStr dLat) with
     | some q => JsValue.vNum (if strictEqStr dLatRef "N" then q else -q)
     | none => JsValue.vNaN)
    (by cases jsParseFloat (jsToStr dLat) <;> rfl) "gpsLatitude"
  have h2 := flat_rset _ h1
    (match jsParseFloat (jsToStr dLngVal) with
     | some q => JsValue.vNum (if strictEqStr dLngRef "E" then q else -q)
     | none => JsValue.vNaN)
    (by cases jsParseFloat (jsToStr dLngVal) <;> rfl) "gpsLongitude"
  cases rget tags "GPSAltitude" with
  | none => exact h2
  | some dAlt =>
      exact flat_rset _ h2 (parsedFloatOrMissing dAlt)
        (flat_parsedFloatOrMissing dAlt) _

theorem flat_dimStep (tags : Tags) (srcKey dstKey : String) (fi : Bool)
    {r : Record} (hr : RecordFlat r) :
    RecordFlat (dimStep tags srcKey dstKey fi r) := by
  unfold dimStep
  cases rget tags srcKey with
  | none => exact hr
  | some d =>
      cases fi with
      | true => exact hr
      | false =>
          simp only [Bool.not_false, if_true]
          cases jsParseInt10 (jsToStr d) with
          | none => exact hr
          | some n => exact flat_rset r hr (JsValue.vNum n) rfl dstKey

theorem flat_mergeLoop (tags : Tags) :
    ∀ {r : Record}, RecordFlat r → RecordFlat (mergeLoop tags r) := by
  induction tags with
  | nil => intro r hr; exact hr
  | cons p rest ih =>
      intro r hr
      rw [mergeLoop]
      apply ih
      by_cases ht : rtruthy r p.1
      · simp only [ht, if_true]; exact hr
      · simp only [ht, if_false]
        cases p.2 <;>
          first
          | exact hr
          | exact flat_rset r hr _ (safeValue_flat _) _

theorem flat_sweepRecord {r : Record} (hr : RecordFlat r) :
    RecordFlat (sweepRecord r) := by
  intro p hp
  simp only [sweepRecord, List.mem_map] at hp
  obtain ⟨q, hq, hpq⟩ := hp
  subst hpq
  have hv := hr q hq
  show isFlatValue (sweepVal q.2) = true
  cases h : q.2 <;>
    first
    | rfl
    | (rw [h] at hv; exact Bool.noConfusion hv)

theorem flat_dateTimeStep (tags : Tags) {r : Record} (hr : RecordFlat r) :
    RecordFlat (dateTimeStep tags r).1 := by
  unfold dateTimeStep
  cases rget tags "DateTime" with
  | none => exact hr
  | some d =>
      simp only
      cases formatExifDateVal (safeValue d) with
      | none => exact hr
      | some fmt =>
          simp only
          exact flat_rset _ (flat_rset r hr (JsValue.vStr fmt) rfl "dateTime")
            (safeValue d) (safeValue_flat d) _

theorem flat_processTags (tags : Tags) (fw fh : Bool) :
    RecordFlat (processTags tags fw fh).1 := by
  have hnil : RecordFlat ([] : Record) := fun p hp => absurd hp (List.not_mem_nil p)
  have h0 : RecordFlat (stepTag tags "Model" "model" safeValue
      (stepTag tags "Make" "make" safeValue [])) :=
    flat_stepTag _ _ _ safeValue_flat
      (flat_stepTag _ _ _ safeValue_flat hnil)
  have hrest : ∀ {r : Record}, RecordFlat r →
      RecordFlat (processTagsRest tags fw fh r) := by
    intro r hr
    unfold processTagsRest processTagsTail
    exact flat_sweepRecord (flat_mergeLoop _ (flat_dimStep _ _ _ _
      (flat_dimStep _ _ _ _ (flat_gpsStep _
        (flat_stepTag _ _ _ safeValue_flat
          (flat_stepTag _ _ _ flat_parsedIntOrMissing
            (flat_stepTag _ _ _ flat_parsedFloatOrMissing
              (flat_stepTag _ _ _ safeValue_flat hr))))))))
  unfold processTags
  dsimp only
  rcases hdt : dateTimeStep tags (stepTag tags "Model" "model" safeValue
      (stepTag tags "Make" "make" safeValue [])) with ⟨r2, ok⟩
  have hr2 : RecordFlat r2 := by
    have := flat_dateTimeStep tags h0
    rwa [hdt] at this
  cases ok
  · exact hr2
  · exact hrest hr2

theorem flat_fileInfoRecord (f : FileInfo) (dims : DimsOutcome) :
    RecordFlat (fileInfoRecord f dims) := by
  have base : RecordFlat (fileAttrRecord f) := by
    intro p hp
    simp only [fileAttrRecord, List.mem_cons, List.not_mem_nil, or_false] at hp
    rcases hp with rfl | rfl | rfl | rfl | rfl <;> rfl
  cases dims with
  | imgLoad w h =>
      intro p hp
      simp only [fileInfoRecord] at hp
      rcases List.mem_append.mp hp with h1 | h1
      · exact base p h1
      · simp only [List.mem_cons, List.not_mem_nil, or_false] at h1
        rcases h1 with rfl | rfl | rfl <;> rfl
  | urlReadError => exact base
  | urlLoadWithoutResult => exact base
  | imgLoadError => exact base

/-- C8 counterexample: an `FNumber` tag whose description does not parse as
a number makes the normalizer store JavaScript `undefined` under `fNumber`
(exifService.ts:185), so the returned record contains a field value that is
neither a string, a number, nor null — refuting the claim's enumeration of
possible field values.  (It is still not an object or array.) -/
theorem metadata_flat_claim_counterexample :
    extractExifData ⟨"a.jpg", 0, "image/jpeg"⟩
        (TagReadOutcome.loadTags (some [("FNumber", JsValue.vStr "f/2.8")]))
        DimsOutcome.imgLoadError false =
      some (Except.ok
        [("fileName", JsValue.vStr "a.jpg"),
         ("fileSize", JsValue.vStr "0 Bytes"),
         ("fileSizeBytes", JsValue.vNum 0),
         ("fileType", JsValue.vStr "image/jpeg"),
         ("fileExtension", JsValue.vStr "jpg"),
         ("fNumber", JsValue.vUndefined),
         ("FNumber", JsValue.vStr "f/2.8")]) ∧
    rget
        [("fileName", JsValue.vStr "a.jpg"),
         ("fileSize", JsValue.vStr "0 Bytes"),
         ("fileSizeBytes", JsValue.vNum 0),
         ("fileType", JsValue.vStr "image/jpeg"),
         ("fileExtension", JsValue.vStr "jpg"),
         ("fNumber", JsValue.vUndefined),
         ("FNumber", JsValue.vStr "f/2.8")] "fNumber" = some JsValue.vUndefined ∧
    isStrNumNull JsValue.vUndefined = false :=
  ⟨by with_unfolding_all rfl, rfl, rfl⟩

/-- C8 (amended): every field value of the Metadata Record returned by
normalization is a primitive — string, number (possibly NaN), null, or
undefined — never a boolean, an object, or an array; nested decoder values
are serialized to strings by the coercion and final sweep. -/
theorem extractExifData_flat (f : FileInfo) (tagsOut : TagReadOutcome)
    (dims : DimsOutcome) (ord : Bool) (r : Record)
    (h : extractExifData f tagsOut dims ord = some (Except.ok r)) :
    ∀ p ∈ r, isFlatValue p.2 = true := by
  have hnil : RecordFlat ([] : Record) := fun p hp => absurd hp (List.not_mem_nil p)
  cases tagsOut with
  | loadWithoutResult =>
      simp only [extractExifData] at h
      injection h with h1
      exact Except.noConfusion h1
  | readError =>
      cases dims <;> simp only [extractExifData] at h <;>
        first
        | exact Option.noConfusion h
        | (injection h with h1; injection h1 with h2; subst h2;
           exact flat_mergeSpread _ _ (flat_fileInfoRecord f _) hnil)
  | loadTags o =>
      cases o with
      | none =>
          cases dims <;> simp only [extractExifData] at h <;>
            first
            | exact Option.noConfusion h
            | (injection h with h1; injection h1 with h2; subst h2;
               exact flat_mergeSpread _ _ (flat_fileInfoRecord f _) hnil)
      | some tags =>
          cases dims <;> simp only [extractExifData] at h <;>
            first
            | exact Option.noConfusion h
            | (injection h with h1; injection h1 with h2; subst h2;
               exact flat_mergeSpread _ _ (flat_fileInfoRecord f _)
                 (flat_processTags tags _ _))

/-- Witness for C8 (amended) at a concrete file and tag map, specialised to
the record's `make` entry. -/
theorem extractExifData_flat_witness :
    isFlatValue (JsValue.vStr "Canon") = true :=
  extractExifData_flat ⟨"a.jpg", 0, "image/jpeg"⟩
    (TagReadOutcome.loadTags (some [("Make", JsValue.vStr "Canon")]))
    DimsOutcome.imgLoadError false
    [("fileName", JsValue.vStr "a.jpg"),
     ("fileSize", JsValue.vStr "0 Bytes"),
     ("fileSizeBytes", JsValue.vNum 0),
     ("fileType", JsValue.vStr "image/jpeg"),
     ("fileExtension", JsValue.vStr "jpg"),
     ("make", JsValue.vStr "Canon"),
     ("Make", JsValue.vStr "Canon")] (by with_unfolding_all rfl)
    ("make", JsValue.vStr "Canon")
    (List.Mem.tail _ (List.Mem.tail _ (List.Mem.tail _ (List.Mem.tail _
      (List.Mem.tail _ (List.Mem.head _))))))


/-- C2 counterexample: at `b = 1048575` (one byte under 1 MB) the source
renders `"1024 KB"` — two-decimal rounding pushes the displayed numeric part
to exactly `1024`, outside the claimed `[1.00, 1024.00)`, under every unit
choice — refuting the claim (already in its weakened form `sizeClaimAt`). -/
theorem formatFileSize_claim_counterexample : ¬ sizeClaimAt 1048575 := by
  have hlog : Nat.log 1024 1048575 = 1 :=
    Nat.log_eq_of_pow_le_of_lt_pow (by norm_num) (by norm_num)
  have hval : formatFileSize 1048575 = "1024 KB" := by
    unfold formatFileSize
    rw [if_neg (by decide : ¬ ((1048575 : ℕ) = 0)), hlog]
    with_unfolding_all decide
  intro hcl
  obtain ⟨i, h1, h2, h3⟩ := hcl
  rw [hval] at h1
  fin_cases i
  · exact absurd h3 (by decide)
  · exact absurd h3 (by decide)
  · exact absurd h1 (by with_unfolding_all decide)
  · exact absurd h2 (by decide)

/-- C2 (amended): for byte counts below `1024^4`, the formatter picks the
unit index `⌊log₁₀₂₄ b⌋` (the smallest unit keeping the *unrounded* scaled
value in `[1, 1024)`), and displays that value rounded half-up to two
decimals with trailing zeros trimmed; the rounding can reach `1024.00`
exactly (hundredths in `[100, 102400]`, not `[100, 102400)`); `b = 0`
renders `"0 Bytes"`.  (For `b ≥ 1024^4` the unit table is exceeded and the
unit renders as `"undefined"`, also outside the claim.) -/
theorem formatFileSize_amended (b : ℕ) (hb : b < 1024 ^ 4) :
    (b = 0 → formatFileSize b = "0 Bytes") ∧
    (0 < b →
      formatFileSize b =
        toFixed2Trim ((b : ℚ) / 1024 ^ Nat.log 1024 b) ++ " " ++
          sizeUnits.getD (Nat.log 1024 b) "undefined" ∧
      Nat.log 1024 b < 4 ∧
      1 ≤ (b : ℚ) / 1024 ^ Nat.log 1024 b ∧
      (b : ℚ) / 1024 ^ Nat.log 1024 b < 1024 ∧
      100 ≤ displayCents b (Nat.log 1024 b) ∧
      displayCents b (Nat.log 1024 b) ≤ 102400 ∧
      ∀ j : ℕ, 1 ≤ (b : ℚ) / 1024 ^ j → (b : ℚ) / 1024 ^ j < 1024 →
        Nat.log 1024 b ≤ j) := by
  constructor
  · intro h; subst h; rfl
  · intro hpos
    have hb0 : b ≠ 0 := hpos.ne'
    have hlow : 1024 ^ Nat.log 1024 b ≤ b := Nat.pow_log_le_self 1024 hb0
    have hhigh : b < 1024 ^ (Nat.log 1024 b + 1) :=
      Nat.lt_pow_succ_log_self (by norm_num) b
    have hlt4 : Nat.log 1024 b < 4 := Nat.log_lt_of_lt_pow hb0 hb
    have hpowpos : (0 : ℚ) < 1024 ^ Nat.log 1024 b := by positivity
    have hlowQ : (1024 : ℚ) ^ Nat.log 1024 b ≤ (b : ℚ) := by exact_mod_cast hlow
    have hhighN : b < 1024 ^ Nat.log 1024 b * 1024 := by
      rw [← pow_succ]; exact hhigh
    refine ⟨?_, hlt4, ?_, ?_, ?_, ?_, ?_⟩
    · unfold formatFileSize
      rw [if_neg hb0]
    · rw [le_div_iff₀ hpowpos, one_mul]; exact hlowQ
    · rw [div_lt_iff₀ hpowpos]
      calc (b : ℚ) < 1024 ^ Nat.log 1024 b * 1024 := by exact_mod_cast hhighN
        _ = 1024 * 1024 ^ Nat.log 1024 b := by ring
    · rw [displayCents, Nat.le_div_iff_mul_le (by positivity)]
      omega
    · have hlt : displayCents b (Nat.log 1024 b) < 102401 := by
        rw [displayCents, Nat.div_lt_iff_lt_mul (by positivity)]
        omega
      omega
    · intro j hj1 hj2
      by_contra hc
      push_neg at hc
      have hle : (1024 : ℕ) ^ (j + 1) ≤ 1024 ^ Nat.log 1024 b :=
        Nat.pow_le_pow_right (by norm_num) hc
      have hj2N : (b : ℚ) < ((1024 : ℕ) : ℚ) ^ (j + 1) := by
        have h := (div_lt_iff₀ (by positivity : (0:ℚ) < 1024 ^ j)).mp hj2
        push_cast
        calc (b : ℚ) < 1024 * 1024 ^ j := h
          _ = 1024 ^ (j + 1) := by ring
      have hblt : b < 1024 ^ (j + 1) := by exact_mod_cast hj2N
      exact absurd (lt_of_lt_of_le hblt (le_trans hle hlow)) (lt_irrefl b)

/-- Witness for C2 (amended) at `b = 1536` (renders `"1.5 KB"`). -/
theorem formatFileSize_amended_witness :
    (1536 : ℕ) < 1024 ^ 4 ∧
    (((1536 : ℕ) = 0 → formatFileSize 1536 = "0 Bytes") ∧
     (0 < (1536 : ℕ) →
      formatFileSize 1536 =
        toFixed2Trim (((1536 : ℕ) : ℚ) / 1024 ^ Nat.log 1024 1536) ++ " " ++
          sizeUnits.getD (Nat.log 1024 1536) "undefined" ∧
      Nat.log 1024 1536 < 4 ∧
      1 ≤ ((1536 : ℕ) : ℚ) / 1024 ^ Nat.log 1024 1536 ∧
      ((1536 : ℕ) : ℚ) / 1024 ^ Nat.log 1024 1536 < 1024 ∧
      100 ≤ displayCents 1536 (Nat.log 1024 1536) ∧
      displayCents 1536 (Nat.log 1024 1536) ≤ 102400 ∧
      ∀ j : ℕ, 1 ≤ ((1536 : ℕ) : ℚ) / 1024 ^ j →
        ((1536 : ℕ) : ℚ) / 1024 ^ j < 1024 →
        Nat.log 1024 1536 ≤ j)) :=
  ⟨by norm_num, formatFileSize_amended 1536 (by norm_num)⟩

/-- C3 counterexample: for the reply `"{}"` (valid JSON, all four fields
missing) the parsed result's description is the string
`"No description available"` (geminiService.ts:184) — not the empty string
the claim asserts. -/
theorem parseGemini_description_default_counterexample :
    (parseGeminiReply "\x7b\x7d").description =
      JsValue.vStr "No description available" ∧
    "No description available" ≠ "" :=
  ⟨by with_unfolding_all rfl, by decide⟩

/-- C3 (amended): on a reply whose extracted JSON parses to an object, each
of the four result fields missing from the object defaults independently —
`description` to the string `"No description available"` (not the empty
string), and the three lists to the empty list. -/
theorem parseGemini_defaults (text : String) (fs : List (String × JsValue))
    (hp : jsonParse (geminiJsonText text) = some (JsValue.vObj fs)) :
    (jsGetField (JsValue.vObj fs) "description" = none →
      (parseGeminiReply text).description =
        JsValue.vStr "No description available") ∧
    (jsGetField (JsValue.vObj fs) "tags" = none →
      (parseGeminiReply text).tags = JsValue.vArr []) ∧
    (jsGetField (JsValue.vObj fs) "hashtags" = none →
      (parseGeminiReply text).hashtags = JsValue.vArr []) ∧
    (jsGetField (JsValue.vObj fs) "enhancementSuggestions" = none →
      (parseGeminiReply text).enhancementSuggestions = JsValue.vArr []) := by
  unfold parseGeminiReply
  rw [hp]
  refine ⟨?_, ?_, ?_, ?_⟩ <;> intro h <;> simp [h, coalesce]

/-- Witness for C3 (amended) on the reply `"{}"`. -/
theorem parseGemini_defaults_witness :
    (jsGetField (JsValue.vObj []) "description" = none →
      (parseGeminiReply "\x7b\x7d").description =
        JsValue.vStr "No description available") ∧
    (jsGetField (JsValue.vObj []) "tags" = none →
      (parseGeminiReply "\x7b\x7d").tags = JsValue.vArr []) ∧
    (jsGetField (JsValue.vObj []) "hashtags" = none →
      (parseGeminiReply "\x7b\x7d").hashtags = JsValue.vArr []) ∧
    (jsGetField (JsValue.vObj []) "enhancementSuggestions" = none →
      (parseGeminiReply "\x7b\x7d").enhancementSuggestions = JsValue.vArr []) :=
  parseGemini_defaults "\x7b\x7d" [] rfl

/-- C4: the analysis fails with the size-limit failure (whose message
carries the observed size in MB to two decimals, see `fileTooLargeMessage`)
if and only if the byte length strictly exceeds `MAX_FILE_SIZE =
20 × 1024 × 1024`, and in that case no outbound model call is made
(the boolean component). -/
theorem analyzeImage_size_guard (size : ℕ) (reply : String) :
    (MAX_FILE_SIZE < size →
      analyzeImageWithGemini size reply =
        (Except.error (fileTooLargeMessage size), false)) ∧
    (size ≤ MAX_FILE_SIZE →
      analyzeImageWithGemini size reply =
        (Except.ok (parseGeminiReply reply), true)) ∧
    (∀ e b, analyzeImageWithGemini size reply = (Except.error e, b) →
      MAX_FILE_SIZE < size ∧ e = fileTooLargeMessage size ∧ b = false) := by
  refine ⟨?_, ?_, ?_⟩
  · intro h
    unfold analyzeImageWithGemini
    rw [if_pos h]
  · intro h
    unfold analyzeImageWithGemini
    rw [if_neg (not_lt.mpr h)]
  · intro e b h
    unfold analyzeImageWithGemini at h
    by_cases hs : MAX_FILE_SIZE < size
    · rw [if_pos hs] at h
      injection h with h1 h2
      injection h1 with h3
      exact ⟨hs, h3.symm, h2.symm⟩
    · rw [if_neg hs] at h
      injection h with h1 h2
      exact Except.noConfusion h1

/-- Witness for C4 at the exact boundary: `20 × 1024 × 1024` bytes passes,
one more byte fails, reporting `20.00 MB`. -/
theorem analyzeImage_size_guard_witness :
    analyzeImageWithGemini (20 * 1024 * 1024) "r" =
      (Except.ok (parseGeminiReply "r"), true) ∧
    analyzeImageWithGemini (20 * 1024 * 1024 + 1) "r" =
      (Except.error (fileTooLargeMessage (20 * 1024 * 1024 + 1)), false) ∧
    fileTooLargeMessage (20 * 1024 * 1024 + 1) =
      "Image file size (20.00 MB) exceeds the 20MB limit for AI analysis." :=
  ⟨(analyzeImage_size_guard (20 * 1024 * 1024) "r").2.1 (by decide),
   (analyzeImage_size_guard (20 * 1024 * 1024 + 1) "r").1 (by decide),
   by with_unfolding_all decide⟩

/-- C7: when JSON extraction fails entirely (no parseable fenced block and
the whole reply is not JSON), the parser still returns a successful Analysis
Result whose description is the first 200 characters of the raw reply
followed by an ellipsis and whose three lists are empty; at the analysis
entry point this surfaces as a success, not a failure. -/
theorem parseGemini_fallback (text : String)
    (hp : jsonParse (geminiJsonText text) = none) :
    parseGeminiReply text = fallbackAnalysis text ∧
    (parseGeminiReply text).description =
      JsValue.vStr (text.take 200 ++ "...") ∧
    (parseGeminiReply text).tags = JsValue.vArr [] ∧
    (parseGeminiReply text).hashtags = JsValue.vArr [] ∧
    (parseGeminiReply text).enhancementSuggestions = JsValue.vArr [] ∧
    ∀ size : ℕ, size ≤ MAX_FILE_SIZE →
      analyzeImageWithGemini size text =
        (Except.ok (fallbackAnalysis text), true) := by
  have h1 : parseGeminiReply text = fallbackAnalysis text := by
    unfold parseGeminiReply
    rw [hp]
  refine ⟨h1, ?_, ?_, ?_, ?_, ?_⟩
  · rw [h1]; rfl
  · rw [h1]; rfl
  · rw [h1]; rfl
  · rw [h1]; rfl
  · intro size hs
    unfold analyzeImageWithGemini
    rw [if_neg (not_lt.mpr hs), h1]

set_option maxRecDepth 10000 in
/-- Witness for C7 on a 232-character reply with no fenced block and no
parseable JSON. -/
theorem parseGemini_fallback_witness :
    parseGeminiReply
        "Hello, here is my thought... Hello, here is my thought... Hello, here is my thought... Hello, here is my thought... Hello, here is my thought... Hello, here is my thought... Hello, here is my thought... Hello, here is my thought..." =
      fallbackAnalysis
        "Hello, here is my thought... Hello, here is my thought... Hello, here is my thought... Hello, here is my thought... Hello, here is my thought... Hello, here is my thought... Hello, here is my thought... Hello, here is my thought..." ∧
    (parseGeminiReply
        "Hello, here is my thought... Hello, here is my thought... Hello, here is my thought... Hello, here is my thought... Hello, here is my thought... Hello, here is my thought... Hello, here is my thought... Hello, here is my thought...").description =
      JsValue.vStr
        (("Hello, here is my thought... Hello, here is my thought... Hello, here is my thought... Hello, here is my thought... Hello, here is my thought... Hello, here is my thought... Hello, here is my thought... Hello, here is my thought...").take 200 ++
          "...") ∧
    (parseGeminiReply
        "Hello, here is my thought... Hello, here is my thought... Hello, here is my thought... Hello, here is my thought... Hello, here is my thought... Hello, here is my thought... Hello, here is my thought... Hello, here is my thought...").tags =
      JsValue.vArr [] ∧
    (parseGeminiReply
        "Hello, here is my thought... Hello, here is my thought... Hello, here is my thought... Hello, here is my thought... Hello, here is my thought... Hello, here is my thought... Hello, here is my thought... Hello, here is my thought...").hashtags =
      JsValue.vArr [] ∧
    (parseGeminiReply
        "Hello, here is my thought... Hello, here is my thought... Hello, here is my thought... Hello, here is my thought... Hello, here is my thought... Hello, here is my thought... Hello, here is my thought... Hello, here is my thought...").enhancementSuggestions =
      JsValue.vArr [] ∧
    ∀ size : ℕ, size ≤ MAX_FILE_SIZE →
      analyzeImageWithGemini size
          "Hello, here is my thought... Hello, here is my thought... Hello, here is my thought... Hello, here is my thought... Hello, here is my thought... Hello, here is my thought... Hello, here is my thought... Hello, here is my thought..." =
        (Except.ok (fallbackAnalysis
          "Hello, here is my thought... Hello, here is my thought... Hello, here is my thought... Hello, here is my thought... Hello, here is my thought... Hello, here is my thought... Hello, here is my thought... Hello, here is my thought..."), true) :=
  parseGemini_fallback
    "Hello, here is my thought... Hello, here is my thought... Hello, here is my thought... Hello, here is my thought... Hello, here is my thought... Hello, here is my thought... Hello, here is my thought... Hello, here is my thought..."
    rfl

/-- C9 counterexample: `make` is a field of the static "Camera Settings"
table and is present (and truthy) in the record, yet the serialization
renders no section at all — the camera row requires *both* make and model
(geminiService.ts:49), refuting "a labeled section is rendered iff at least
one field of that section is present". -/
theorem prompt_sections_claim_counterexample :
    (∃ e ∈ cameraEntries, "make" ∈ e.1) ∧
    rget [("make", JsValue.vStr "Canon")] "make" =
      some (JsValue.vStr "Canon") ∧
    promptSections [("make", JsValue.vStr "Canon")] = [] ∧
    formatExifDataForPrompt [("make", JsValue.vStr "Canon")] = "" :=
  ⟨⟨_, List.mem_cons_self _ _, by decide⟩, rfl, rfl, rfl⟩

/-- C9 (amended): a labeled section of the static table is rendered iff at
least one of its *rows* has all its required fields present with truthy
values (the Camera and Dimensions rows each require two fields); each
qualifying row renders exactly one line; the location section is appended
iff both coordinates are truthy. -/
theorem formatExifDataForPrompt_sections (r : Record) :
    (∀ name entries, (name, entries) ∈ sectionDefinitions →
      ((sectionBlock r name entries).isSome ↔
        entries.any (fun e => e.1.all (rtruthy r)) = true) ∧
      (sectionLines r entries).length =
        (entries.filter (fun e => e.1.all (rtruthy r))).length) ∧
    ((rtruthy r "gpsLatitude" && rtruthy r "gpsLongitude") = true →
      promptSections r =
        sectionDefinitions.filterMap (fun sd => sectionBlock r sd.1 sd.2) ++
          [locationBlock r]) ∧
    ((rtruthy r "gpsLatitude" && rtruthy r "gpsLongitude") = false →
      promptSections r =
        sectionDefinitions.filterMap (fun sd => sectionBlock r sd.1 sd.2)) := by
  refine ⟨?_, ?_, ?_⟩
  · intro name entries _
    constructor
    · have hmap : (sectionLines r entries) = [] ↔
          (entries.filter (fun e => e.1.all (rtruthy r))) = [] := by
        rw [sectionLines]
        exact List.map_eq_nil_iff
      by_cases he : (sectionLines r entries).isEmpty = true
      · rw [sectionBlock, if_pos he]
        rw [List.isEmpty_iff] at he
        have hf := hmap.mp he
        simp only [Option.isSome_none, Bool.false_eq_true, false_iff]
        rw [List.any_eq_true]
        rintro ⟨x, hx, hpx⟩
        exact absurd (hf ▸ List.mem_filter_of_mem hx hpx) (List.not_mem_nil x)
      · rw [sectionBlock, if_neg he]
        simp only [Option.isSome_some, true_iff]
        rw [Bool.not_eq_true, List.isEmpty_eq_false_iff_exists_mem] at he
        obtain ⟨x, hx⟩ := he
        rw [sectionLines] at hx
        obtain ⟨y, hy, _⟩ := List.mem_map.mp hx
        rw [List.mem_filter] at hy
        rw [List.any_eq_true]
        exact ⟨y, hy.1, hy.2⟩
    · rw [sectionLines]
      exact List.length_map _ _
  · intro h
    simp only [promptSections, h, if_true]
  · intro h
    simp only [promptSections, h, Bool.false_eq_true, if_false]

/-- Witness for C9 (amended) at a concrete record with a file name and
truthy coordinates. -/
theorem formatExifDataForPrompt_sections_witness :
    ((sectionBlock
        [("fileName", JsValue.vStr "a.jpg"),
         ("gpsLatitude", JsValue.vStr "10"),
         ("gpsLongitude", JsValue.vStr "20")] "File Information"
        fileInfoEntries).isSome ↔
      fileInfoEntries.any (fun e => e.1.all (rtruthy
        [("fileName", JsValue.vStr "a.jpg"),
         ("gpsLatitude", JsValue.vStr "10"),
         ("gpsLongitude", JsValue.vStr "20")])) = true) ∧
    promptSections
        [("fileName", JsValue.vStr "a.jpg"),
         ("gpsLatitude", JsValue.vStr "10"),
         ("gpsLongitude", JsValue.vStr "20")] =
      sectionDefinitions.filterMap (fun sd => sectionBlock
        [("fileName", JsValue.vStr "a.jpg"),
         ("gpsLatitude", JsValue.vStr "10"),
         ("gpsLongitude", JsValue.vStr "20")] sd.1 sd.2) ++
        [locationBlock
          [("fileName", JsValue.vStr "a.jpg"),
           ("gpsLatitude", JsValue.vStr "10"),
           ("gpsLongitude", JsValue.vStr "20")]] :=
  ⟨((formatExifDataForPrompt_sections _).1 "File Information" fileInfoEntries
      (List.mem_cons_self _ _)).1,
   (formatExifDataForPrompt_sections _).2.1 rfl⟩

theorem processTags_ok_decomp (tags : Tags) (fw fh : Bool)
    (hok : (processTags tags fw fh).2 = true) :
    ∃ r0 : Record, (processTags tags fw fh).1 = processTagsRest tags fw fh r0 ∧
      ∀ k : String, k ≠ "make" → k ≠ "model" → k ≠ "dateTime" →
        k ≠ "rawDateTime" → rget r0 k = none := by
  unfold processTags at hok ⊢
  dsimp only at hok ⊢
  rcases hdt : dateTimeStep tags (stepTag tags "Model" "model" safeValue
      (stepTag tags "Make" "make" safeValue [])) with ⟨r2, ok⟩
  rw [hdt] at hok
  cases ok with
  | false => exact absurd hok (by simp)
  | true =>
      refine ⟨r2, rfl, ?_⟩
      intro k h1 h2 h3 h4
      have : rget (dateTimeStep tags (stepTag tags "Model" "model" safeValue
          (stepTag tags "Make" "make" safeValue []))).1 k = rget
          (stepTag tags "Model" "model" safeValue
            (stepTag tags "Make" "make" safeValue [])) k :=
        rget_dateTimeStep_ne _ _ (Ne.symm h3) (Ne.symm h4)
      rw [hdt] at this
      simp only at this
      rw [this, rget_stepTag_ne _ _ _ _ (Ne.symm h2),
        rget_stepTag_ne _ _ _ _ (Ne.symm h1)]
      rfl

theorem rget_frontSteps_gps (tags : Tags) (r0 : Record) {k : String}
    (h1 : "exposureTime" ≠ k) (h2 : "fNumber" ≠ k) (h3 : "iso" ≠ k)
    (h4 : "focalLength" ≠ k) :
    rget (stepTag tags "FocalLength" "focalLength" safeValue
      (stepTag tags "ISOSpeedRatings" "iso" parsedIntOrMissing
        (stepTag tags "FNumber" "fNumber" parsedFloatOrMissing
          (stepTag tags "ExposureTime" "exposureTime" safeValue r0)))) k =
      rget r0 k := by
  rw [rget_stepTag_ne _ _ _ _ h4, rget_stepTag_ne _ _ _ _ h3,
    rget_stepTag_ne _ _ _ _ h2, rget_stepTag_ne _ _ _ _ h1]

theorem gpsStep_not_present (tags : Tags) (r : Record)
    (h : rget tags "GPSLatitude" = none ∨ rget tags "GPSLatitudeRef" = none ∨
      rget tags "GPSLongitude" = none ∨ rget tags "GPSLongitudeRef" = none) :
    gpsStep tags r = r := by
  cases hA : rget tags "GPSLatitude" <;>
    cases hB : rget tags "GPSLatitudeRef" <;>
    cases hC : rget tags "GPSLongitude" <;>
    cases hD : rget tags "GPSLongitudeRef" <;>
    first
    | (exfalso
       rcases h with h | h | h | h <;>
         first
         | (rw [hA] at h; exact Option.noConfusion h)
         | (rw [hB] at h; exact Option.noConfusion h)
         | (rw [hC] at h; exact Option.noConfusion h)
         | (rw [hD] at h; exact Option.noConfusion h))
    | simp [gpsStep, hA, hB, hC, hD]

theorem rget_gpsStep_lat (tags : Tags) (r : Record)
    (dLat dLatRef dLng dLngRef : JsValue)
    (hA : rget tags "GPSLatitude" = some dLat)
    (hB : rget tags "GPSLatitudeRef" = some dLatRef)
    (hC : rget tags "GPSLongitude" = some dLng)
    (hD : rget tags "GPSLongitudeRef" = some dLngRef) :
    rget (gpsStep tags r) "gpsLatitude" =
      some (match jsParseFloat (jsToStr dLat) with
        | some q => JsValue.vNum (if strictEqStr dLatRef "N" then q else -q)
        | none => JsValue.vNaN) := by
  unfold gpsStep
  rw [hA, hB, hC, hD]
  dsimp only
  cases halt : rget tags "GPSAltitude" with
  | none =>
      rw [rget_rset_ne _ (by decide), rget_rset_self]
  | some dAlt =>
      rw [rget_rset_ne _ (by decide), rget_rset_ne _ (by decide), rget_rset_self]

theorem rget_gpsStep_lng (tags : Tags) (r : Record)
    (dLat dLatRef dLng dLngRef : JsValue)
    (hA : rget tags "GPSLatitude" = some dLat)
    (hB : rget tags "GPSLatitudeRef" = some dLatRef)
    (hC : rget tags "GPSLongitude" = some dLng)
    (hD : rget tags "GPSLongitudeRef" = some dLngRef) :
    rget (gpsStep tags r) "gpsLongitude" =
      some (match jsParseFloat (jsToStr dLng) with
        | some q => JsValue.vNum (if strictEqStr dLngRef "E" then q else -q)
        | none => JsValue.vNaN) := by
  unfold gpsStep
  rw [hA, hB, hC, hD]
  dsimp only
  cases halt : rget tags "GPSAltitude" with
  | none => rw [rget_rset_self]
  | some dAlt => rw [rget_rset_ne _ (by decide), rget_rset_self]

theorem rget_gpsStep_alt (tags : Tags) (r : Record)
    (dLat dLatRef dLng dLngRef : JsValue)
    (hA : rget tags "GPSLatitude" = some dLat)
    (hB : rget tags "GPSLatitudeRef" = some dLatRef)
    (hC : rget tags "GPSLongitude" = some dLng)
    (hD : rget tags "GPSLongitudeRef" = some dLngRef) :
    rget (gpsStep tags r) "gpsAltitude" =
      (match rget tags "GPSAltitude" with
        | some dAlt => some (parsedFloatOrMissing dAlt)
        | none => rget r "gpsAltitude") := by
  unfold gpsStep
  rw [hA, hB, hC, hD]
  dsimp only
  cases halt : rget tags "GPSAltitude" with
  | none => rw [rget_rset_ne _ (by decide), rget_rset_ne _ (by decide)]
  | some dAlt => rw [rget_rset_self]

/-- C5: when all four GPS tags (latitude, longitude, both hemisphere
references) are present and the conversion completes, the recorded latitude
is the parsed magnitude negated unless the reference is strictly `"N"`, the
longitude negated unless strictly `"E"`; and neither coordinate field is
recorded unless both latitude and longitude tags are present.  The two
`rget tags` side conditions say the decoder's tag names do not collide with
the record's own field names (decoder tags are capitalised). -/
theorem gps_sign_convention (tags : Tags) (fw fh : Bool)
    (hnc1 : rget tags "gpsLatitude" = none)
    (hnc2 : rget tags "gpsLongitude" = none)
    (hok : (processTags tags fw fh).2 = true) :
    (∀ dLat dLatRef dLng dLngRef lat lng,
      rget tags "GPSLatitude" = some dLat →
      rget tags "GPSLatitudeRef" = some dLatRef →
      rget tags "GPSLongitude" = some dLng →
      rget tags "GPSLongitudeRef" = some dLngRef →
      jsParseFloat (jsToStr dLat) = some lat →
      jsParseFloat (jsToStr dLng) = some lng →
      rget (processTags tags fw fh).1 "gpsLatitude" =
        some (JsValue.vNum (if strictEqStr dLatRef "N" then lat else -lat)) ∧
      rget (processTags tags fw fh).1 "gpsLongitude" =
        some (JsValue.vNum (if strictEqStr dLngRef "E" then lng else -lng))) ∧
    ((rget tags "GPSLatitude" = none ∨ rget tags "GPSLongitude" = none) →
      rget (processTags tags fw fh).1 "gpsLatitude" = none ∧
      rget (processTags tags fw fh).1 "gpsLongitude" = none) := by
  obtain ⟨r0, heq, hnone⟩ := processTags_ok_decomp tags fw fh hok
  have hlat0 : rget r0 "gpsLatitude" = none :=
    hnone _ (by decide) (by decide) (by decide) (by decide)
  have hlng0 : rget r0 "gpsLongitude" = none :=
    hnone _ (by decide) (by decide) (by decide) (by decide)
  rw [heq]
  unfold processTagsRest
  constructor
  · intro dLat dLatRef dLng dLngRef lat lng hA hB hC hD hlat hlng
    constructor
    · rw [rget_processTagsTail tags fw fh _ _ (by decide) (by decide) hnc1,
        rget_gpsStep_lat tags _ dLat dLatRef dLng dLngRef hA hB hC hD, hlat]
      rfl
    · rw [rget_processTagsTail tags fw fh _ _ (by decide) (by decide) hnc2,
        rget_gpsStep_lng tags _ dLat dLatRef dLng dLngRef hA hB hC hD, hlng]
      rfl
  · intro hmiss
    have hOr : rget tags "GPSLatitude" = none ∨
        rget tags "GPSLatitudeRef" = none ∨
        rget tags "GPSLongitude" = none ∨
        rget tags "GPSLongitudeRef" = none := by
      rcases hmiss with h | h
      · exact Or.inl h
      · exact Or.inr (Or.inr (Or.inl h))
    constructor
    · rw [rget_processTagsTail tags fw fh _ _ (by decide) (by decide) hnc1,
        gpsStep_not_present tags _ hOr,
        rget_frontSteps_gps tags r0 (by decide) (by decide) (by decide) (by decide),
        hlat0]
      rfl
    · rw [rget_processTagsTail tags fw fh _ _ (by decide) (by decide) hnc2,
        gpsStep_not_present tags _ hOr,
        rget_frontSteps_gps tags r0 (by decide) (by decide) (by decide) (by decide),
        hlng0]
      rfl

/-- Witness for C5: `(lat = 10, ref = "S")`, `(lon = 20, ref = "E")` record
`(-10, 20)`. -/
theorem gps_sign_convention_witness :
    rget (processTags
        [("GPSLatitude", JsValue.vStr "10"),
         ("GPSLatitudeRef", JsValue.vStr "S"),
         ("GPSLongitude", JsValue.vStr "20"),
         ("GPSLongitudeRef", JsValue.vStr "E")] false false).1 "gpsLatitude" =
      some (JsValue.vNum (-10)) ∧
    rget (processTags
        [("GPSLatitude", JsValue.vStr "10"),
         ("GPSLatitudeRef", JsValue.vStr "S"),
         ("GPSLongitude", JsValue.vStr "20"),
         ("GPSLongitudeRef", JsValue.vStr "E")] false false).1 "gpsLongitude" =
      some (JsValue.vNum 20) :=
  (gps_sign_convention
      [("GPSLatitude", JsValue.vStr "10"),
       ("GPSLatitudeRef", JsValue.vStr "S"),
       ("GPSLongitude", JsValue.vStr "20"),
       ("GPSLongitudeRef", JsValue.vStr "E")] false false rfl rfl rfl).1
    (JsValue.vStr "10") (JsValue.vStr "S") (JsValue.vStr "20")
    (JsValue.vStr "E") 10 20 rfl rfl rfl rfl
    (by with_unfolding_all decide) (by with_unfolding_all decide)

/-- C10: a numeric GPS altitude is recorded only when the latitude,
longitude and both hemisphere references are all present (and the altitude
description parses as a number); an altitude tag accompanying incomplete
coordinates is silently dropped.  Side conditions as in the GPS sign
theorem: no tag-name collision with the record field, and the conversion
completed. -/
theorem gps_altitude_gating (tags : Tags) (fw fh : Bool)
    (hnc : rget tags "gpsAltitude" = none)
    (hok : (processTags tags fw fh).2 = true) :
    (∀ q : ℚ, rget (processTags tags fw fh).1 "gpsAltitude" =
        some (JsValue.vNum q) →
      (rget tags "GPSLatitude").isSome = true ∧
      (rget tags "GPSLatitudeRef").isSome = true ∧
      (rget tags "GPSLongitude").isSome = true ∧
      (rget tags "GPSLongitudeRef").isSome = true ∧
      ∃ dAlt, rget tags "GPSAltitude" = some dAlt ∧
        jsParseFloat (jsToStr dAlt) = some q) ∧
    ((rget tags "GPSLatitude" = none ∨ rget tags "GPSLatitudeRef" = none ∨
      rget tags "GPSLongitude" = none ∨ rget tags "GPSLongitudeRef" = none) →
      rget (processTags tags fw fh).1 "gpsAltitude" = none) := by
  obtain ⟨r0, heq, hnone⟩ := processTags_ok_decomp tags fw fh hok
  have halt0 : rget r0 "gpsAltitude" = none :=
    hnone _ (by decide) (by decide) (by decide) (by decide)
  have hfront : rget (stepTag tags "FocalLength" "focalLength" safeValue
      (stepTag tags "ISOSpeedRatings" "iso" parsedIntOrMissing
        (stepTag tags "FNumber" "fNumber" parsedFloatOrMissing
          (stepTag tags "ExposureTime" "exposureTime" safeValue r0))))
        "gpsAltitude" = none := by
    rw [rget_frontSteps_gps tags r0 (by decide) (by decide) (by decide)
      (by decide), halt0]
  rw [heq]
  unfold processTagsRest
  constructor
  · intro q hq
    rw [rget_processTagsTail tags fw fh _ _ (by decide) (by decide) hnc] at hq
    rcases hA : rget tags "GPSLatitude" with _ | dLat
    · rw [gpsStep_not_present tags _ (Or.inl hA), hfront] at hq
      exact Option.noConfusion hq
    rcases hB : rget tags "GPSLatitudeRef" with _ | dLatRef
    · rw [gpsStep_not_present tags _ (Or.inr (Or.inl hB)), hfront] at hq
      exact Option.noConfusion hq
    rcases hC : rget tags "GPSLongitude" with _ | dLng
    · rw [gpsStep_not_present tags _ (Or.inr (Or.inr (Or.inl hC))), hfront] at hq
      exact Option.noConfusion hq
    rcases hD : rget tags "GPSLongitudeRef" with _ | dLngRef
    · rw [gpsStep_not_present tags _ (Or.inr (Or.inr (Or.inr hD))), hfront] at hq
      exact Option.noConfusion hq
    rw [rget_gpsStep_alt tags _ dLat dLatRef dLng dLngRef hA hB hC hD] at hq
    refine ⟨rfl, rfl, rfl, rfl, ?_⟩
    rcases halt : rget tags "GPSAltitude" with _ | dAlt
    · rw [halt] at hq
      simp only [hfront] at hq
      exact Option.noConfusion hq
    · rw [halt] at hq
      simp only [Option.map_some] at hq
      injection hq with hq2
      refine ⟨dAlt, rfl, ?_⟩
      rcases hp : jsParseFloat (jsToStr dAlt) with _ | qd
      · rw [parsedFloatOrMissing, hp] at hq2
        exact JsValue.noConfusion hq2
      · rw [parsedFloatOrMissing, hp] at hq2
        have : JsValue.vNum qd = JsValue.vNum q := hq2
        injection this with h3
        rw [h3]
  · intro hmiss
    rw [rget_processTagsTail tags fw fh _ _ (by decide) (by decide) hnc,
      gpsStep_not_present tags _ hmiss, hfront]
    rfl

/-- Witness for C10: an altitude tag with incomplete coordinates (no
latitude reference) records nothing. -/
theorem gps_altitude_gating_witness :
    rget (processTags
        [("GPSAltitude", JsValue.vStr "5"),
         ("GPSLatitude", JsValue.vStr "1")] false false).1 "gpsAltitude" =
      none :=
  (gps_altitude_gating
      [("GPSAltitude", JsValue.vStr "5"),
       ("GPSLatitude", JsValue.vStr "1")] false false rfl rfl).2
    (Or.inr (Or.inl rfl))

theorem formatExifDateVal_str (s : String) :
    formatExifDateVal (JsValue.vStr s) = some (formatExifDate s) := by
  unfold formatExifDateVal
  by_cases h : s = ""
  · subst h; rfl
  · simp [JsValue.truthy, h]

theorem rget_processTagsRest_other (tags : Tags) (fw fh : Bool) (r0 : Record)
    {k : String} (h1 : "exposureTime" ≠ k) (h2 : "fNumber" ≠ k)
    (h3 : "iso" ≠ k) (h4 : "focalLength" ≠ k) (h5 : "gpsLatitude" ≠ k)
    (h6 : "gpsLongitude" ≠ k) (h7 : "gpsAltitude" ≠ k)
    (h8 : "imageWidth" ≠ k) (h9 : "imageHeight" ≠ k)
    (hnc : rget tags k = none) :
    rget (processTagsRest tags fw fh r0) k = (rget r0 k).map sweepVal := by
  unfold processTagsRest
  rw [rget_processTagsTail tags fw fh _ _ h8 h9 hnc,
    rget_gpsStep_ne tags _ h5 h6 h7,
    rget_frontSteps_gps tags r0 h1 h2 h3 h4]

theorem intlFormatEnUS_ne_empty (p : DateParts) : intlFormatEnUS p ≠ "" := by
  unfold intlFormatEnUS
  intro h
  have hlen := congrArg String.length h
  simp only [String.length_append,
    show (" " : String).length = 1 from rfl,
    show (", " : String).length = 2 from rfl,
    show (":" : String).length = 1 from rfl,
    show ("" : String).length = 0 from rfl] at hlen
  omega

theorem monthNames_getD_mem (n : ℕ) :
    monthNames.getD (n % 12) "January" ∈ monthNames := by
  have h : n % 12 < monthNames.length := by
    have : monthNames.length = 12 := rfl
    omega
  rw [List.getD_eq_getElem monthNames "January" h]
  exact List.getElem_mem h

/-- C6: when the decoder's `DateTime` description is a string matching the
fixed-width `YYYY:MM:DD HH:MM:SS` pattern, the record's display field holds
the fixed-locale en-US rendering `<Month name> <day>, <year>, <hh>:<mm>
<AM|PM>` of the (rolled-over) components — a non-empty string beginning
with a genuine month name — and the raw field retains the original string
verbatim; when the string does not match, the display field holds the
original string verbatim. -/
theorem dateTime_normalization (tags : Tags) (fw fh : Bool) (s : String)
    (hdt : rget tags "DateTime" = some (JsValue.vStr s))
    (hc1 : rget tags "dateTime" = none)
    (hc2 : rget tags "rawDateTime" = none) :
    rget (processTags tags fw fh).1 "rawDateTime" = some (JsValue.vStr s) ∧
    (∀ y mo d hh mi ss : ℕ,
      exifDateMatch s = some (y, mo, d, hh, mi, ss) →
      rget (processTags tags fw fh).1 "dateTime" =
        some (JsValue.vStr (intlFormatEnUS (jsDateOfComponents (y : ℤ)
          ((mo : ℤ) - 1) (d : ℤ) (hh : ℤ) (mi : ℤ) (ss : ℤ)))) ∧
      formatExifDate s ≠ "" ∧
      ∃ monthStr dayStr yearStr hhStr miStr apStr,
        monthStr ∈ monthNames ∧
        formatExifDate s = monthStr ++ " " ++ dayStr ++ ", " ++ yearStr ++
          ", " ++ hhStr ++ ":" ++ miStr ++ " " ++ apStr) ∧
    (exifDateMatch s = none →
      rget (processTags tags fw fh).1 "dateTime" = some (JsValue.vStr s)) := by
  unfold processTags
  dsimp only
  have hstep : dateTimeStep tags (stepTag tags "Model" "model" safeValue
      (stepTag tags "Make" "make" safeValue [])) =
      (rset (rset (stepTag tags "Model" "model" safeValue
          (stepTag tags "Make" "make" safeValue [])) "dateTime"
          (JsValue.vStr (formatExifDate s))) "rawDateTime"
        (JsValue.vStr s), true) := by
    unfold dateTimeStep
    rw [hdt]
    dsimp only
    rw [show safeValue (JsValue.vStr s) = JsValue.vStr s from rfl,
      formatExifDateVal_str]
  rw [hstep]
  dsimp only
  have hraw : rget (processTagsRest tags fw fh
      (rset (rset (stepTag tags "Model" "model" safeValue
          (stepTag tags "Make" "make" safeValue [])) "dateTime"
          (JsValue.vStr (formatExifDate s))) "rawDateTime"
        (JsValue.vStr s))) "rawDateTime" = some (JsValue.vStr s) := by
    rw [rget_processTagsRest_other tags fw fh _ (by decide) (by decide)
      (by decide) (by decide) (by decide) (by decide) (by decide) (by decide)
      (by decide) hc2, rget_rset_self]
    rfl
  have hdtv : rget (processTagsRest tags fw fh
      (rset (rset (stepTag tags "Model" "model" safeValue
          (stepTag tags "Make" "make" safeValue [])) "dateTime"
          (JsValue.vStr (formatExifDate s))) "rawDateTime"
        (JsValue.vStr s))) "dateTime" =
      some (JsValue.vStr (formatExifDate s)) := by
    rw [rget_processTagsRest_other tags fw fh _ (by decide) (by decide)
      (by decide) (by decide) (by decide) (by decide) (by decide) (by decide)
      (by decide) hc1, rget_rset_ne _ (by decide), rget_rset_self]
    rfl
  refine ⟨hraw, ?_, ?_⟩
  · intro y mo d hh mi ss hmatch
    have hs : s ≠ "" := by
      intro h
      subst h
      rw [show exifDateMatch "" = none from rfl] at hmatch
      exact Option.noConfusion hmatch
    have hfmt : formatExifDate s = intlFormatEnUS (jsDateOfComponents (y : ℤ)
        ((mo : ℤ) - 1) (d : ℤ) (hh : ℤ) (mi : ℤ) (ss : ℤ)) := by
      unfold formatExifDate
      rw [if_neg hs, hmatch]
    refine ⟨by rw [hdtv, hfmt], by rw [hfmt]; exact intlFormatEnUS_ne_empty _, ?_⟩
    rw [hfmt]
    refine ⟨monthNames.getD (((jsDateOfComponents (y : ℤ) ((mo : ℤ) - 1)
        (d : ℤ) (hh : ℤ) (mi : ℤ) (ss : ℤ)).month - 1).toNat % 12) "January",
      _, _, _, _, _, monthNames_getD_mem _, rfl⟩
  · intro hnone
    rw [hdtv]
    by_cases hs : s = ""
    · subst hs; rfl
    · have : formatExifDate s = s := by
        unfold formatExifDate
        rw [if_neg hs, hnone]
      rw [this]

/-- Witness for C6 on the timestamp `"2025:02:25 14:30:05"`. -/
theorem dateTime_normalization_witness :
    rget (processTags [("DateTime", JsValue.vStr "2025:02:25 14:30:05")]
        false false).1 "rawDateTime" =
      some (JsValue.vStr "2025:02:25 14:30:05") ∧
    rget (processTags [("DateTime", JsValue.vStr "2025:02:25 14:30:05")]
        false false).1 "dateTime" =
      some (JsValue.vStr "February 25, 2025, 02:30 PM") ∧
    formatExifDate "2025:02:25 14:30:05" ≠ "" :=
  have h := dateTime_normalization
    [("DateTime", JsValue.vStr "2025:02:25 14:30:05")] false false
    "2025:02:25 14:30:05" rfl rfl rfl
  have h2 := h.2.1 2025 2 25 14 30 5 rfl
  ⟨h.1, h2.1, h2.2.1⟩
